import Mathlib

/-!
# Verification of the boxbackup timer facility (`lib/common/Timer.cpp`)

Shallow embedding of the timer set / scheduler from `src/lib/common/Timer.cpp`:

* `box_time_t` (a 64-bit count of microseconds) is modelled as `Int`;
  the values involved stay far from the 64-bit boundary, so no wraparound
  is modelled.
* Timer objects live behind pointers; the global set `Timers::spTimers`
  is a `std::vector<Timer*>`.  We model addresses as `Nat` identifiers,
  the vector as a `List Nat`, and the collection of live objects as a
  total map `Nat → Timer`.  `spTimers == NULL` is `Option.none`.
* `GetCurrentBoxTime()` is an external monotonic clock; within one call
  chain the model reads the `now` field of the state.  Advancing the
  clock between top-level operations is done by the test harness by
  updating that field.
* `setitimer(ITIMER_REAL, {sec, usec})` is recorded in the state as the
  pair `(sec, usec)`; `(0, 0)` is "disarmed".
* Virtual dispatch of `Timer::OnExpire` is modelled by a `Behavior`
  stored in each timer object: the base-class behaviour (set `mExpired`),
  a subclass that constructs new timers and then sets the flag, and a
  subclass whose callback throws.
* C++ control flow that leaves the function abnormally is an `Outcome`:
  `.exc` for a propagating C++ exception (carrying the state at unwind
  time), `.fault` for a failed `ASSERT` / undefined behaviour /
  non-termination of the source loops.  All recursion is bounded by an
  explicit fuel; `.fault` on fuel exhaustion represents divergence.
* `Timers::Reschedule` erases from the vector through an iterator that was
  obtained before the `OnExpire` call; this is modelled as erasure at the
  scanned position (index) in the post-callback vector.
-/

/-- A timer object: the two data members of class `Timer`, plus the
dynamic type (which `OnExpire` override the object carries). -/
inductive Behavior where
  /-- the base class `Timer::OnExpire`: sets `mExpired = true`. -/
  | default : Behavior
  /-- a subclass whose `OnExpire` constructs one new `Timer(secs)` per list
  entry (each such constructor calls `Timers::Add`) and then sets the
  expired flag. -/
  | addThen (timeouts : List Nat) : Behavior
  /-- a subclass whose `OnExpire` throws a C++ exception. -/
  | throws : Behavior
deriving DecidableEq

/-- The data members of class `Timer` (`Timer.cpp` lines 234-236). -/
structure Timer where
  mExpires : Int
  mExpired : Bool
  behavior : Behavior
deriving DecidableEq

/-- The global state of the timer subsystem. -/
structure TimersState where
  /-- the objects behind each timer address. -/
  heap : Nat → Timer
  /-- `Timers::spTimers`: `none` models the NULL pointer. -/
  spTimers : Option (List Nat)
  /-- `Timers::sRescheduleNeeded`. -/
  sRescheduleNeeded : Bool
  /-- the last `setitimer` programming `(tv_sec, tv_usec)`; `(0,0)` disarmed. -/
  itimer : Int × Int
  /-- the current reading of the monotonic clock `GetCurrentBoxTime()`. -/
  now : Int
  /-- allocator: the next fresh timer address. -/
  nextId : Nat

/-- `MICRO_SEC_IN_SEC`. -/
def MICRO_SEC_IN_SEC : Int := 1000000

/-- Modelled from the spec: `SecondsToBoxTime(s) = s · 10⁶` (`BoxTime.h` is
not part of the provided sources). -/
def SecondsToBoxTime (s : Nat) : Int := (s : Int) * MICRO_SEC_IN_SEC

/-- Modelled from the spec: `BoxTimeToSeconds(t) = t / 10⁶`, truncating
(C++ integer division; `BoxTime.h` is not part of the provided sources). -/
def BoxTimeToSeconds (t : Int) : Int := t.tdiv MICRO_SEC_IN_SEC

/-- Modelled from the spec: `BoxTimeToMicroSeconds(t) = t` (`BoxTime.h` is
not part of the provided sources). -/
def BoxTimeToMicroSeconds (t : Int) : Int := t

/-- Pointwise update of the object map (writing through a `Timer*`). -/
def setTimer (h : Nat → Timer) (i : Nat) (o : Timer) : Nat → Timer :=
  fun j => if j = i then o else h j

/-- The body of the base-class `Timer::OnExpire` (lines 348-357):
`mExpired = true`. -/
def markExpired (st : TimersState) (tid : Nat) : TimersState :=
  { st with heap := setTimer st.heap tid ⟨(st.heap tid).mExpires, true, (st.heap tid).behavior⟩ }

/-- Result of running a piece of the C++ code: normal return, a C++
exception unwinding out (with the state at that moment), or an
assertion failure / undefined behaviour / divergence. -/
inductive Outcome where
  | ok (st : TimersState)
  | exc (st : TimersState)
  | fault

/-- The scan of the expiry pass (`Timer.cpp` lines 147-175): starting at
`begin()`, find the first member whose `GetExpiryTime() - timeNow <= 0`.
Returns the scanned prefix, the found timer and the rest, i.e. the
iterator position together with its contents. -/
def findDueSplit (h : Nat → Timer) (now : Int) :
    List Nat → Option (List Nat × Nat × List Nat)
  | [] => none
  | t :: rest =>
    if (h t).mExpires - now ≤ 0 then some ([], t, rest)
    else (findDueSplit h now rest).map fun p => (t :: p.1, p.2.1, p.2.2)

/-- The selection pass (`Timer.cpp` lines 181-198): fold over the remaining
members accumulating `timeToNextEvent` (0 = "none seen yet"). -/
def selectLoop (h : Nat → Timer) (now : Int) : List Nat → Int → Int
  | [], tNE => tNE
  | t :: rest, tNE =>
    let tte0 := (h t).mExpires - now
    let tte := if tte0 ≤ 0 then 1 else tte0
    selectLoop h now rest (if tNE = 0 ∨ tNE > tte then tte else tNE)

/-- End of `Timers::Reschedule` (lines 181-213): the selection pass followed
by `ASSERT(timeToNextEvent >= 0)` and the `setitimer` call.  The model's
`setitimer` always succeeds (the OS-rejection branch throws in the
source; no OS failure is modelled). -/
def armResult (st : TimersState) : Outcome :=
  match st.spTimers with
  | none => .fault
  | some l =>
    let tNE := selectLoop st.heap st.now l 0
    if tNE < 0 then .fault
    else .ok { st with itimer :=
      (BoxTimeToSeconds tNE, (BoxTimeToMicroSeconds tNE).tmod MICRO_SEC_IN_SEC) }

/-- The mutually recursive entry points of the scheduler.  A `Call` is a
pending invocation; `exec` runs it with the given fuel. -/
inductive Call where
  /-- `Timers::Reschedule()` (lines 128-214). -/
  | resched (st : TimersState)
  /-- the expiry-pass `while (restart)` loop of `Reschedule` (lines 142-176),
  entered after the flag was cleared and `timeNow` read. -/
  | expiry (st : TimersState)
  /-- a virtual call `rTimer.OnExpire()` (line 160). -/
  | onExpire (tid : Nat) (st : TimersState)
  /-- the sequence of `Timer` constructions performed by an
  `Behavior.addThen` callback body. -/
  | constructEach (timeouts : List Nat) (st : TimersState)
  /-- `Timer::Timer(size_t timeoutSecs)` (lines 234-264), allocating a fresh
  address. -/
  | ctor (secs : Nat) (st : TimersState)
  /-- `Timers::Add(Timer&)` (lines 81-86). -/
  | addT (tid : Nat) (st : TimersState)

/-- One fueled interpreter for all the mutually recursive functions of
`Timer.cpp`.  Every nested call costs one unit of fuel; `.fault` on
exhaustion stands for non-termination of the source. -/
def exec : Nat → Call → Outcome
  | 0, _ => .fault
  | fuel + 1, c =>
    match c with
    | .resched st =>
      -- ASSERT(spTimers); sRescheduleNeeded = false; timeNow = GetCurrentBoxTime()
      match st.spTimers with
      | none => .fault
      | some _ =>
        match exec fuel (.expiry { st with sRescheduleNeeded := false }) with
        | .ok st₁ => armResult st₁
        | o => o
    | .expiry st =>
      match st.spTimers with
      | none => .fault
      | some l =>
        match findDueSplit st.heap st.now l with
        | none => .ok st
        | some (pre, t, _) =>
          match exec fuel (.onExpire t st) with
          | .ok st₁ =>
            match st₁.spTimers with
            | none => .fault
            | some l₁ =>
              -- spTimers->erase(i): erase at the iterator position
              exec fuel (.expiry { st₁ with spTimers := some (l₁.eraseIdx pre.length) })
          | o => o
    | .onExpire tid st =>
      match (st.heap tid).behavior with
      | .default => .ok (markExpired st tid)
      | .throws => .exc st
      | .addThen ts =>
        match exec fuel (.constructEach ts st) with
        | .ok st₁ => .ok (markExpired st₁ tid)
        | o => o
    | .constructEach ts st =>
      match ts with
      | [] => .ok st
      | secs :: rest =>
        match exec fuel (.ctor secs st) with
        | .ok st₁ => exec fuel (.constructEach rest st₁)
        | o => o
    | .ctor secs st =>
      -- mExpires(GetCurrentBoxTime() + SecondsToBoxTime(timeoutSecs)), mExpired(false)
      let tid := st.nextId
      let st₁ := { st with
        heap := setTimer st.heap tid
          ⟨st.now + SecondsToBoxTime secs, false, .default⟩,
        nextId := st.nextId + 1 }
      if secs = 0 then
        .ok { st₁ with heap := setTimer st₁.heap tid ⟨0, false, .default⟩ }
      else
        exec fuel (.addT tid st₁)
    | .addT tid st =>
      -- ASSERT(spTimers); push_back; Reschedule()
      match st.spTimers with
      | none => .fault
      | some l => exec fuel (.resched { st with spTimers := some (l ++ [tid]) })

/-- `Timers::Reschedule()` as a top-level entry point. -/
def Timers.Reschedule (fuel : Nat) (st : TimersState) : Outcome :=
  exec fuel (Call.resched st)

/-- `Timers::Add(Timer&)` as a top-level entry point. -/
def Timers.Add (fuel : Nat) (tid : Nat) (st : TimersState) : Outcome :=
  exec fuel (Call.addT tid st)

/-- One step of the erase loop in `Timers::Remove` (lines 101-115): scan for
the first back-reference equal to the given address and erase it. -/
def eraseFirstRef : List Nat → Nat → Option (List Nat)
  | [], _ => none
  | x :: xs, t => if x = t then some xs else (eraseFirstRef xs t).map (x :: ·)

/-- The `while (restart)` loop of `Timers::Remove`, fuelled by the list
length (each erase shortens the vector). -/
def removeLoopFuel : Nat → List Nat → Nat → List Nat
  | 0, l, _ => l
  | f + 1, l, t =>
    match eraseFirstRef l t with
    | none => l
    | some l' => removeLoopFuel f l' t

/-- The restart-on-find erase loop of `Timers::Remove` (lines 101-115). -/
def removeLoop (l : List Nat) (t : Nat) : List Nat :=
  removeLoopFuel l.length l t

/-- `Timers::Remove(Timer&)` (lines 97-118): `ASSERT(spTimers)`, erase every
back-reference, then `Reschedule()`. -/
def Timers.Remove (fuel : Nat) (tid : Nat) (st : TimersState) : Outcome :=
  match st.spTimers with
  | none => .fault
  | some l => exec fuel (Call.resched { st with spTimers := some (removeLoop l tid) })

/-- `Timer::~Timer()` (lines 266-276): unconditionally `Timers::Remove(*this)`. -/
def Timer.dtor (fuel : Nat) (tid : Nat) (st : TimersState) : Outcome :=
  Timers.Remove fuel tid st

/-- `Timer::Timer(size_t timeoutSecs)` as a top-level entry point; the new
object's address is `st.nextId`. -/
def Timer.ctorTimeout (fuel : Nat) (secs : Nat) (st : TimersState) : Outcome :=
  exec fuel (Call.ctor secs st)

/-- `Timer::Timer(const Timer&)` (lines 278-310): copy both data members
(and the dynamic type), then `Timers::Add(*this)` iff
`!mExpired && mExpires != 0`.  The new object's address is `st.nextId`. -/
def Timer.copyCtor (fuel : Nat) (src : Nat) (st : TimersState) : Outcome :=
  let s := st.heap src
  let tid := st.nextId
  let st₁ := { st with heap := setTimer st.heap tid s, nextId := st.nextId + 1 }
  if s.mExpired = false ∧ s.mExpires ≠ 0 then Timers.Add fuel tid st₁ else .ok st₁

/-- `Timer::operator=(const Timer&)` (lines 312-346): `Timers::Remove(*this)`,
copy the two data members from the source, then `Timers::Add(*this)` iff
`!mExpired && mExpires != 0`. -/
def Timer.assign (fuel : Nat) (dst src : Nat) (st : TimersState) : Outcome :=
  match Timers.Remove fuel dst st with
  | .ok st₁ =>
    let s := st₁.heap src
    let st₂ := { st₁ with
      heap := setTimer st₁.heap dst ⟨s.mExpires, s.mExpired, (st₁.heap dst).behavior⟩ }
    if s.mExpired = false ∧ s.mExpires ≠ 0 then Timers.Add fuel dst st₂ else .ok st₂
  | o => o

/-- `Timers::Init()` (lines 30-43): `ASSERT(!spTimers)`, install the signal
handler, create the empty set. -/
def Timers.Init (st : TimersState) : Outcome :=
  match st.spTimers with
  | some _ => .fault
  | none => .ok { st with spTimers := some [] }

/-- `Timers::Cleanup()` (lines 53-71): `ASSERT(spTimers)`, disarm the OS
interval timer (`setitimer` with a zeroed `itimerval`), uninstall the
handler, discard the set (`spTimers = NULL`). -/
def Timers.Cleanup (st : TimersState) : Outcome :=
  match st.spTimers with
  | none => .fault
  | some _ => .ok { st with itimer := (0, 0), spTimers := none }

/-- Modelled from the spec: `Timers::RequestReschedule` (declared in
`Timer.h`, which is not part of the provided sources) performs a single
store of the reschedule-requested flag; it is what the signal handler
(`Timers::SignalHandler`, lines 228-232) calls. -/
def Timers.RequestReschedule (st : TimersState) : TimersState :=
  { st with sRescheduleNeeded := true }

/-- Modelled from the spec: `Timers::PollIfNeeded` (declared in `Timer.h`,
which is not part of the provided sources) calls `Reschedule` iff the
reschedule-requested flag is set. -/
def Timers.PollIfNeeded (fuel : Nat) (st : TimersState) : Outcome :=
  if st.sRescheduleNeeded then exec fuel (Call.resched st) else .ok st

/-! ## Observations on outcomes (used to state the claims) -/

/-- The timer set after an outcome (`none` on a fault). -/
def membersAfter : Outcome → Option (List Nat)
  | .ok st => st.spTimers
  | .exc st => st.spTimers
  | .fault => none

/-- The object behind an address after an outcome. -/
def heapAt : Outcome → Nat → Option Timer
  | .ok st, t => some (st.heap t)
  | .exc st, t => some (st.heap t)
  | .fault, _ => none

/-- The OS interval-timer programming after an outcome. -/
def itimerAfter : Outcome → Option (Int × Int)
  | .ok st => some st.itimer
  | .exc st => some st.itimer
  | .fault => none

/-- The reschedule-requested flag after an outcome. -/
def flagAfter : Outcome → Option Bool
  | .ok st => some st.sRescheduleNeeded
  | .exc st => some st.sRescheduleNeeded
  | .fault => none

/-- Did the call return normally? -/
def isOk : Outcome → Bool
  | .ok _ => true
  | _ => false

/-- Did a C++ exception propagate out? -/
def isExc : Outcome → Bool
  | .exc _ => true
  | _ => false

/-- Sequencing: run `f` on the state if the first call returned normally. -/
def andThen (o : Outcome) (f : TimersState → Outcome) : Outcome :=
  match o with
  | .ok st => f st
  | o => o

/-- Number of back-references to `t` in the set after an outcome. -/
def countAfter (o : Outcome) (t : Nat) : Nat :=
  ((membersAfter o).getD []).count t

/-- The relative delay (in µs) encoded by an `itimerval` programming. -/
def delayOf : Int × Int → Int
  | (s, u) => s * MICRO_SEC_IN_SEC + u

/-- The minimum of a list of instants (`0` for the empty list); used to
state the earliest-deadline property. -/
def minOver : List Int → Int
  | [] => 0
  | x :: xs => xs.foldl min x

/-- All timer objects carry the base-class `OnExpire` (no subclass
callbacks). -/
def allDefault (h : Nat → Timer) : Prop :=
  ∀ i, (h i).behavior = Behavior.default

/-- A member is due at time `now` (the expiry-pass test, line 153). -/
def dueAt (h : Nat → Timer) (now : Int) (t : Nat) : Prop :=
  (h t).mExpires - now ≤ 0

instance (h : Nat → Timer) (now : Int) (t : Nat) : Decidable (dueAt h now t) := by
  unfold dueAt; infer_instance

/-- The survivors of the expiry pass: members not due at `now`, in order. -/
def survivors (h : Nat → Timer) (now : Int) (l : List Nat) : List Nat :=
  l.filter fun t => !decide (dueAt h now t)

/-- The object map after the expiry pass: every due member is marked
expired. -/
def expireHeap (h : Nat → Timer) (now : Int) (l : List Nat) : Nat → Timer :=
  fun j => if j ∈ l ∧ dueAt h now j then { h j with mExpired := true } else h j

/-- The `itimerval` written for a given `timeToNextEvent`. -/
def armPair (t : Int) : Int × Int :=
  (BoxTimeToSeconds t, (BoxTimeToMicroSeconds t).tmod MICRO_SEC_IN_SEC)

/-- The state produced by `Timers::Reschedule` on a set whose callbacks are
all the base-class `OnExpire`. -/
def rescheduledState (st : TimersState) (l : List Nat) : TimersState :=
  { st with
    sRescheduleNeeded := false,
    spTimers := some (survivors st.heap st.now l),
    heap := expireHeap st.heap st.now l,
    itimer := armPair (selectLoop (expireHeap st.heap st.now l) st.now
      (survivors st.heap st.now l) 0) }

/-- `Timers::Reschedule` never returns on this state: the source recursion
`OnExpire → Timers::Add → Reschedule → OnExpire → …` never terminates
(the dispatched timer is erased only after its callback returns, so the
nested `Reschedule` finds it due again). -/
def rescheduleDivergesAt (st : TimersState) : Prop :=
  ∀ fuel, exec fuel (Call.resched st) = Outcome.fault

/-! ## Concrete states used by witnesses and counterexamples -/

/-- A heap of inert base-class timers, to be overridden pointwise. -/
def baseHeap : Nat → Timer := fun _ => ⟨0, false, .default⟩

/-- One due timer (deadline = now) whose `OnExpire` constructs a
`Timer(1)`; the set is `[0]`. -/
def c1State : TimersState :=
  { heap := setTimer baseHeap 0 ⟨1000000, false, .addThen [1]⟩,
    spTimers := some [0], sRescheduleNeeded := false,
    itimer := (0, 0), now := 1000000, nextId := 1 }

/-- One default timer due 1µs in the future. -/
def c2State : TimersState :=
  { heap := setTimer baseHeap 0 ⟨1000001, false, .default⟩,
    spTimers := some [0], sRescheduleNeeded := true,
    itimer := (0, 0), now := 1000000, nextId := 1 }

/-- One due timer whose `OnExpire` throws. -/
def c3State : TimersState :=
  { heap := setTimer baseHeap 0 ⟨50, false, .throws⟩,
    spTimers := some [0], sRescheduleNeeded := true,
    itimer := (0, 0), now := 100, nextId := 1 }

/-- A due default timer at the head of the set, with a future one behind. -/
def c3StateB : TimersState :=
  { heap := setTimer (setTimer baseHeap 0 ⟨50, false, .default⟩) 1 ⟨900, false, .default⟩,
    spTimers := some [0, 1], sRescheduleNeeded := false,
    itimer := (0, 0), now := 100, nextId := 2 }

/-- A set holding timer 1 three times (copies at the same address) along
with two future timers. -/
def c4State : TimersState :=
  { heap := setTimer (setTimer (setTimer baseHeap 1 ⟨5000000, false, .default⟩)
      2 ⟨3000000, false, .default⟩) 3 ⟨7000000, false, .default⟩,
    spTimers := some [1, 2, 1, 3, 1], sRescheduleNeeded := false,
    itimer := (0, 0), now := 1000000, nextId := 4 }

/-- An initialised subsystem holding one armed timer (address 0). -/
def c5State : TimersState :=
  { heap := setTimer baseHeap 0 ⟨2000000, false, .default⟩,
    spTimers := some [0], sRescheduleNeeded := false,
    itimer := (1, 0), now := 1000000, nextId := 1 }

/-- An initialised, empty subsystem. -/
def c6State : TimersState :=
  { heap := baseHeap, spTimers := some [], sRescheduleNeeded := false,
    itimer := (0, 0), now := 1000000, nextId := 0 }

/-- Timer 0 (the assignment destination) armed for 2s, timer 1 (the source)
armed for 3s. -/
def c7State : TimersState :=
  { heap := setTimer (setTimer baseHeap 0 ⟨3000000, false, .default⟩)
      1 ⟨4000000, false, .default⟩,
    spTimers := some [0, 1], sRescheduleNeeded := false,
    itimer := (2, 0), now := 1000000, nextId := 2 }

/-- Timer 0 armed for 1s, to be copy-constructed from. -/
def c8State : TimersState :=
  { heap := setTimer baseHeap 0 ⟨2000000, false, .default⟩,
    spTimers := some [0], sRescheduleNeeded := false,
    itimer := (1, 0), now := 1000000, nextId := 1 }

/-- A set member carrying the sentinel deadline 0 (invariant violation). -/
def c9State : TimersState :=
  { heap := setTimer baseHeap 5 ⟨0, false, .default⟩,
    spTimers := some [5], sRescheduleNeeded := false,
    itimer := (3, 3), now := 1000000, nextId := 6 }

/-- A state with one future timer and the reschedule-requested flag set. -/
def c10State : TimersState :=
  { heap := setTimer baseHeap 0 ⟨2000000, false, .default⟩,
    spTimers := some [0], sRescheduleNeeded := true,
    itimer := (0, 0), now := 1000000, nextId := 1 }

/-! ## List-level lemmas about the erase and scan loops -/

theorem eraseFirstRef_none {l : List Nat} {t : Nat}
    (h : eraseFirstRef l t = none) : t ∉ l := by
  induction l with
  | nil => simp
  | cons x xs ih =>
    simp only [eraseFirstRef] at h
    by_cases hx : x = t
    · simp [hx] at h
    · rw [if_neg hx] at h
      cases he : eraseFirstRef xs t with
      | none =>
        intro hm
        rcases List.mem_cons.mp hm with rfl | hm
        · exact hx rfl
        · exact ih he hm
      | some l' => rw [he] at h; simp at h

theorem eraseFirstRef_some {t : Nat} :
    ∀ {l l' : List Nat}, eraseFirstRef l t = some l' →
      l.length = l'.length + 1 ∧ l.filter (· ≠ t) = l'.filter (· ≠ t) := by
  intro l
  induction l with
  | nil => intro l' h; simp [eraseFirstRef] at h
  | cons x xs ih =>
    intro l' h
    simp only [eraseFirstRef] at h
    by_cases hx : x = t
    · rw [if_pos hx] at h
      obtain rfl : xs = l' := by simpa using h
      subst hx
      constructor
      · simp
      · simp [List.filter_cons]
    · rw [if_neg hx] at h
      obtain ⟨ys, hys, rfl⟩ := Option.map_eq_some'.mp h
      obtain ⟨hlen, hfil⟩ := ih hys
      constructor
      · simp [hlen]
      · simp only [List.filter_cons, hfil]

theorem removeLoopFuel_eq_filter {t : Nat} :
    ∀ f l, l.length ≤ f → removeLoopFuel f l t = l.filter (· ≠ t)
  | 0, l => by
    intro h
    obtain rfl : l = [] := List.length_eq_zero.mp (Nat.le_zero.mp h)
    simp [removeLoopFuel]
  | f + 1, l => by
    intro h
    cases he : eraseFirstRef l t with
    | none =>
      simp only [removeLoopFuel, he]
      have := eraseFirstRef_none he
      symm
      refine List.filter_eq_self.mpr ?_
      intro a ha
      simp only [ne_eq, decide_eq_true_eq]
      rintro rfl; exact this ha
    | some l' =>
      simp only [removeLoopFuel, he]
      obtain ⟨hlen, hfil⟩ := eraseFirstRef_some he
      rw [removeLoopFuel_eq_filter f l' (by omega), ← hfil]

theorem removeLoop_eq_filter (l : List Nat) (t : Nat) :
    removeLoop l t = l.filter (· ≠ t) :=
  removeLoopFuel_eq_filter l.length l le_rfl

theorem findDueSplit_none {h : Nat → Timer} {now : Int} :
    ∀ {l : List Nat}, findDueSplit h now l = none →
      ∀ t ∈ l, ¬ dueAt h now t := by
  intro l
  induction l with
  | nil => simp
  | cons x xs ih =>
    intro hf t ht
    simp only [findDueSplit] at hf
    by_cases hx : (h x).mExpires - now ≤ 0
    · simp [hx] at hf
    · rw [if_neg hx] at hf
      cases he : findDueSplit h now xs with
      | none =>
        rcases List.mem_cons.mp ht with rfl | ht
        · exact hx
        · exact ih he t ht
      | some p => rw [he] at hf; simp at hf

theorem findDueSplit_some {h : Nat → Timer} {now : Int} :
    ∀ {l pre post : List Nat} {t : Nat},
      findDueSplit h now l = some (pre, t, post) →
      l = pre ++ t :: post ∧ dueAt h now t ∧ ∀ u ∈ pre, ¬ dueAt h now u := by
  intro l
  induction l with
  | nil => intro pre post t hf; simp [findDueSplit] at hf
  | cons x xs ih =>
    intro pre post t hf
    simp only [findDueSplit] at hf
    by_cases hx : (h x).mExpires - now ≤ 0
    · rw [if_pos hx] at hf
      obtain ⟨rfl, rfl, rfl⟩ : ([] : List Nat) = pre ∧ x = t ∧ xs = post := by
        simpa using hf
      exact ⟨rfl, hx, by simp⟩
    · rw [if_neg hx] at hf
      obtain ⟨⟨p1, p2, p3⟩, hp, heq⟩ := Option.map_eq_some'.mp hf
      obtain ⟨rfl, rfl, rfl⟩ : x :: p1 = pre ∧ p2 = t ∧ p3 = post := by
        simpa using heq
      obtain ⟨hl, hd, hpre⟩ := ih hp
      refine ⟨by simp [hl], hd, ?_⟩
      intro u hu
      rcases List.mem_cons.mp hu with rfl | hu
      · exact hx
      · exact hpre u hu

theorem eraseIdx_append_cons (pre post : List Nat) (t : Nat) :
    (pre ++ t :: post).eraseIdx pre.length = pre ++ post := by
  induction pre with
  | nil => simp [List.eraseIdx]
  | cons x xs ih => simp [List.eraseIdx, ih]

/-! ## Step equations for the interpreter -/

theorem exec_zero (c : Call) : exec 0 c = Outcome.fault := rfl

theorem exec_resched_none {f : Nat} {st : TimersState} (h : st.spTimers = none) :
    exec (f + 1) (Call.resched st) = Outcome.fault := by
  simp [exec, h]

theorem exec_resched_ok {f : Nat} {st st₁ : TimersState} {l : List Nat}
    (hsp : st.spTimers = some l)
    (hev : exec f (Call.expiry { st with sRescheduleNeeded := false }) = Outcome.ok st₁) :
    exec (f + 1) (Call.resched st) = armResult st₁ := by
  have hev' := hev
  simp only [hsp] at hev'
  simp [exec, hsp, hev']

theorem exec_resched_exc {f : Nat} {st st₁ : TimersState} {l : List Nat}
    (hsp : st.spTimers = some l)
    (hev : exec f (Call.expiry { st with sRescheduleNeeded := false }) = Outcome.exc st₁) :
    exec (f + 1) (Call.resched st) = Outcome.exc st₁ := by
  have hev' := hev
  simp only [hsp] at hev'
  simp [exec, hsp, hev']

theorem exec_resched_fault {f : Nat} {st : TimersState} {l : List Nat}
    (hsp : st.spTimers = some l)
    (hev : exec f (Call.expiry { st with sRescheduleNeeded := false }) = Outcome.fault) :
    exec (f + 1) (Call.resched st) = Outcome.fault := by
  have hev' := hev
  simp only [hsp] at hev'
  simp [exec, hsp, hev']

theorem exec_expiry_none {f : Nat} {st : TimersState} (h : st.spTimers = none) :
    exec (f + 1) (Call.expiry st) = Outcome.fault := by
  simp [exec, h]

theorem exec_expiry_done {f : Nat} {st : TimersState} {l : List Nat}
    (hsp : st.spTimers = some l)
    (hfd : findDueSplit st.heap st.now l = none) :
    exec (f + 1) (Call.expiry st) = Outcome.ok st := by
  simp [exec, hsp, hfd]

theorem exec_expiry_step {f : Nat} {st st₁ : TimersState} {l pre post l₁ : List Nat} {t : Nat}
    (hsp : st.spTimers = some l)
    (hfd : findDueSplit st.heap st.now l = some (pre, t, post))
    (hoe : exec f (Call.onExpire t st) = Outcome.ok st₁)
    (hsp₁ : st₁.spTimers = some l₁) :
    exec (f + 1) (Call.expiry st) =
      exec f (Call.expiry { st₁ with spTimers := some (l₁.eraseIdx pre.length) }) := by
  simp [exec, hsp, hfd, hoe, hsp₁]

theorem exec_expiry_step_exc {f : Nat} {st st₁ : TimersState} {l pre post : List Nat} {t : Nat}
    (hsp : st.spTimers = some l)
    (hfd : findDueSplit st.heap st.now l = some (pre, t, post))
    (hoe : exec f (Call.onExpire t st) = Outcome.exc st₁) :
    exec (f + 1) (Call.expiry st) = Outcome.exc st₁ := by
  simp [exec, hsp, hfd, hoe]

theorem exec_expiry_step_fault {f : Nat} {st : TimersState} {l pre post : List Nat} {t : Nat}
    (hsp : st.spTimers = some l)
    (hfd : findDueSplit st.heap st.now l = some (pre, t, post))
    (hoe : exec f (Call.onExpire t st) = Outcome.fault) :
    exec (f + 1) (Call.expiry st) = Outcome.fault := by
  simp [exec, hsp, hfd, hoe]

theorem exec_onExpire_default {f : Nat} {st : TimersState} {tid : Nat}
    (hb : (st.heap tid).behavior = Behavior.default) :
    exec (f + 1) (Call.onExpire tid st) = Outcome.ok (markExpired st tid) := by
  simp [exec, hb]

theorem exec_onExpire_throws {f : Nat} {st : TimersState} {tid : Nat}
    (hb : (st.heap tid).behavior = Behavior.throws) :
    exec (f + 1) (Call.onExpire tid st) = Outcome.exc st := by
  simp [exec, hb]

theorem exec_onExpire_addThen_fault {f : Nat} {st : TimersState} {tid : Nat} {ts : List Nat}
    (hb : (st.heap tid).behavior = Behavior.addThen ts)
    (hce : exec f (Call.constructEach ts st) = Outcome.fault) :
    exec (f + 1) (Call.onExpire tid st) = Outcome.fault := by
  simp [exec, hb, hce]

theorem exec_construct_cons_fault {f : Nat} {st : TimersState} {secs : Nat} {rest : List Nat}
    (hc : exec f (Call.ctor secs st) = Outcome.fault) :
    exec (f + 1) (Call.constructEach (secs :: rest) st) = Outcome.fault := by
  simp [exec, hc]

theorem exec_ctor_zero {f : Nat} {st : TimersState} :
    exec (f + 1) (Call.ctor 0 st) =
      Outcome.ok { st with
        heap := setTimer (setTimer st.heap st.nextId
          ⟨st.now + SecondsToBoxTime 0, false, Behavior.default⟩) st.nextId
          ⟨0, false, Behavior.default⟩,
        nextId := st.nextId + 1 } := by
  simp [exec]

theorem exec_ctor_pos {f : Nat} {st : TimersState} {secs : Nat} (hs : secs ≠ 0) :
    exec (f + 1) (Call.ctor secs st) =
      exec f (Call.addT st.nextId { st with
        heap := setTimer st.heap st.nextId
          ⟨st.now + SecondsToBoxTime secs, false, Behavior.default⟩,
        nextId := st.nextId + 1 }) := by
  simp [exec, hs]

theorem exec_addT_some {f : Nat} {st : TimersState} {tid : Nat} {l : List Nat}
    (hsp : st.spTimers = some l) :
    exec (f + 1) (Call.addT tid st) =
      exec f (Call.resched { st with spTimers := some (l ++ [tid]) }) := by
  simp [exec, hsp]

/-! ## Heap-congruence and preservation helpers -/

theorem markExpired_spTimers (st : TimersState) (tid : Nat) :
    (markExpired st tid).spTimers = st.spTimers := rfl

theorem markExpired_now (st : TimersState) (tid : Nat) :
    (markExpired st tid).now = st.now := rfl

theorem markExpired_flag (st : TimersState) (tid : Nat) :
    (markExpired st tid).sRescheduleNeeded = st.sRescheduleNeeded := rfl

theorem markExpired_itimer (st : TimersState) (tid : Nat) :
    (markExpired st tid).itimer = st.itimer := rfl

theorem markExpired_nextId (st : TimersState) (tid : Nat) :
    (markExpired st tid).nextId = st.nextId := rfl

theorem markExpired_mExpires (st : TimersState) (tid j : Nat) :
    ((markExpired st tid).heap j).mExpires = (st.heap j).mExpires := by
  simp only [markExpired, setTimer]
  by_cases hj : j = tid
  · subst hj; simp
  · simp [hj]

theorem allDefault_markExpired {st : TimersState} (tid : Nat)
    (h : allDefault st.heap) : allDefault (markExpired st tid).heap := by
  intro j
  simp only [markExpired, setTimer]
  by_cases hj : j = tid
  · subst hj; simp [h j]
  · simp [hj, h j]

theorem survivors_congr {h h' : Nat → Timer} {now : Int}
    (he : ∀ j, (h j).mExpires = (h' j).mExpires) (l : List Nat) :
    survivors h now l = survivors h' now l := by
  unfold survivors
  apply List.filter_congr
  intro t _
  simp [dueAt, he t]

theorem selectLoop_congr {h h' : Nat → Timer} {now : Int}
    (he : ∀ j, (h j).mExpires = (h' j).mExpires) :
    ∀ l acc, selectLoop h now l acc = selectLoop h' now l acc
  | [], _ => rfl
  | t :: rest, acc => by
    simp only [selectLoop, he t]
    exact selectLoop_congr he rest _

theorem selectLoop_nonneg {h : Nat → Timer} {now : Int} :
    ∀ l acc, 0 ≤ acc → 0 ≤ selectLoop h now l acc
  | [], acc => fun ha => ha
  | t :: rest, acc => by
    intro ha
    simp only [selectLoop]
    apply selectLoop_nonneg rest
    by_cases h0 : (h t).mExpires - now ≤ 0
    · simp only [if_pos h0]
      split <;> omega
    · simp only [if_neg h0]
      split <;> omega

/-! ## After a successful pass, no remaining member is due -/

theorem expiry_ok_noDue :
    ∀ f st st', exec f (Call.expiry st) = Outcome.ok st' →
      ∀ l', st'.spTimers = some l' → ∀ t ∈ l', ¬ dueAt st'.heap st'.now t
  | 0, st, st' => by simp [exec]
  | f + 1, st, st' => by
    intro hex l' hsp' t ht
    cases hsp : st.spTimers with
    | none => rw [exec_expiry_none hsp] at hex; cases hex
    | some l =>
      cases hfd : findDueSplit st.heap st.now l with
      | none =>
        rw [exec_expiry_done hsp hfd] at hex
        obtain rfl : st = st' := by cases hex; rfl
        rw [hsp] at hsp'
        obtain rfl : l = l' := by cases hsp'; rfl
        exact findDueSplit_none hfd t ht
      | some p =>
        obtain ⟨pre, u, post⟩ := p
        cases hoe : exec f (.onExpire u st) with
        | ok st₁ =>
          cases hsp₁ : st₁.spTimers with
          | none =>
            rw [show exec (f+1) (Call.expiry st) = Outcome.fault by
              simp [exec, hsp, hfd, hoe, hsp₁]] at hex
            cases hex
          | some l₁ =>
            rw [exec_expiry_step hsp hfd hoe hsp₁] at hex
            exact expiry_ok_noDue f _ st' hex l' hsp' t ht
        | exc st₁ =>
          rw [exec_expiry_step_exc hsp hfd hoe] at hex; cases hex
        | fault =>
          rw [exec_expiry_step_fault hsp hfd hoe] at hex; cases hex

theorem resched_ok_noDue :
    ∀ f st st', exec f (Call.resched st) = Outcome.ok st' →
      ∀ l', st'.spTimers = some l' → ∀ t ∈ l', ¬ dueAt st'.heap st'.now t := by
  intro f st st' hex l' hsp' t ht
  match f with
  | 0 => simp [exec] at hex
  | f + 1 =>
    cases hsp : st.spTimers with
    | none => rw [exec_resched_none hsp] at hex; cases hex
    | some l =>
      cases hev : exec f (.expiry { st with sRescheduleNeeded := false }) with
      | ok st₁ =>
        rw [exec_resched_ok hsp hev] at hex
        cases hsp₁ : st₁.spTimers with
        | none => simp [armResult, hsp₁] at hex
        | some l₁ =>
          simp only [armResult, hsp₁] at hex
          by_cases hlt : selectLoop st₁.heap st₁.now l₁ 0 < 0
          · rw [if_pos hlt] at hex; cases hex
          · rw [if_neg hlt] at hex
            injection hex with hst
            subst hst
            obtain rfl : l₁ = l' := Option.some.inj hsp'
            exact expiry_ok_noDue f _ st₁ hev l₁ hsp₁ t ht
      | exc st₁ => rw [exec_resched_exc hsp hev] at hex; cases hex
      | fault => rw [exec_resched_fault hsp hev] at hex; cases hex

/-! ## Closed form of the expiry pass for base-class callbacks -/

theorem survivors_append (h : Nat → Timer) (now : Int) (l₁ l₂ : List Nat) :
    survivors h now (l₁ ++ l₂) = survivors h now l₁ ++ survivors h now l₂ := by
  simp [survivors]

theorem survivors_cons_due (h : Nat → Timer) (now : Int) {t : Nat} (l : List Nat)
    (hd : dueAt h now t) : survivors h now (t :: l) = survivors h now l := by
  simp [survivors, List.filter_cons, hd]

theorem survivors_cons_not_due (h : Nat → Timer) (now : Int) {t : Nat} (l : List Nat)
    (hd : ¬ dueAt h now t) : survivors h now (t :: l) = t :: survivors h now l := by
  simp [survivors, List.filter_cons, hd]

theorem expiry_normal :
    ∀ f st l, st.spTimers = some l → allDefault st.heap → l.length < f →
      exec f (Call.expiry st) = Outcome.ok { st with
        spTimers := some (survivors st.heap st.now l),
        heap := expireHeap st.heap st.now l }
  | 0, st, l => by intro _ _ h; omega
  | f + 1, st, l => by
    intro hsp hd hlen
    cases hfd : findDueSplit st.heap st.now l with
    | none =>
      rw [exec_expiry_done hsp hfd]
      have hnone := findDueSplit_none hfd
      have hsur : survivors st.heap st.now l = l := by
        refine List.filter_eq_self.mpr ?_
        intro a ha
        simpa using hnone a ha
      have hheap : expireHeap st.heap st.now l = st.heap := by
        funext j
        unfold expireHeap
        rw [if_neg]
        rintro ⟨hj, hdue⟩
        exact hnone j hj hdue
      rw [hsur, hheap, ← hsp]
    | some p =>
      obtain ⟨pre, t, post⟩ := p
      obtain ⟨hl, hdue, _⟩ := findDueSplit_some hfd
      cases f with
      | zero =>
        exfalso
        rw [hl] at hlen
        simp [List.length_append] at hlen
      | succ f' =>
        have hsp₁ : (markExpired st t).spTimers = some l :=
          (markExpired_spTimers st t).trans hsp
        rw [exec_expiry_step hsp hfd (exec_onExpire_default (hd t)) hsp₁]
        have he : l.eraseIdx pre.length = pre ++ post := by
          rw [hl]; exact eraseIdx_append_cons pre post t
        rw [he]
        have hd₂ : allDefault (markExpired st t).heap := allDefault_markExpired t hd
        have hlen₂ : (pre ++ post).length < f' + 1 := by
          rw [hl] at hlen
          simp only [List.length_append, List.length_cons] at hlen ⊢
          omega
        have hme := markExpired_mExpires st t
        have hsur : survivors (markExpired st t).heap st.now (pre ++ post) =
            survivors st.heap st.now l := by
          rw [survivors_congr hme, hl, survivors_append, survivors_append,
            survivors_cons_due st.heap st.now post hdue]
        have hhp : expireHeap (markExpired st t).heap st.now (pre ++ post) =
            expireHeap st.heap st.now l := by
          funext j
          by_cases hj : j = t
          · have hjl : j ∈ l := by rw [hl, hj]; simp
            have hjdue : dueAt st.heap st.now j := by rw [hj]; exact hdue
            unfold expireHeap
            by_cases hcl : j ∈ pre ++ post ∧ dueAt (markExpired st t).heap st.now j
            · rw [if_pos hcl, if_pos ⟨hjl, hjdue⟩]
              simp [markExpired, setTimer, hj]
            · rw [if_neg hcl, if_pos ⟨hjl, hjdue⟩]
              simp [markExpired, setTimer, hj]
          · have hj1 : (markExpired st t).heap j = st.heap j := by
              simp [markExpired, setTimer, hj]
            have hmem : j ∈ pre ++ post ↔ j ∈ l := by
              rw [hl]
              simp [List.mem_append, List.mem_cons, hj]
            unfold expireHeap
            rw [hj1]
            by_cases hcond : j ∈ l ∧ dueAt st.heap st.now j
            · rw [if_pos ⟨hmem.mpr hcond.1, by
                  unfold dueAt
                  rw [hme j]
                  exact hcond.2⟩, if_pos hcond]
            · rw [if_neg (by
                  rintro ⟨hm, hdj⟩
                  exact hcond ⟨hmem.mp hm, by
                    unfold dueAt at hdj ⊢
                    rw [hme j] at hdj
                    exact hdj⟩),
                if_neg hcond]
        rw [expiry_normal (f' + 1)
          { markExpired st t with spTimers := some (pre ++ post) }
          (pre ++ post) rfl hd₂ hlen₂]
        dsimp only
        rw [markExpired_now, markExpired_flag, markExpired_itimer, markExpired_nextId,
          hsur, hhp]

theorem resched_normal :
    ∀ f st l, st.spTimers = some l → allDefault st.heap → l.length + 1 < f →
      exec f (Call.resched st) = Outcome.ok (rescheduledState st l)
  | 0, _, _ => by intro _ _ h; omega
  | f + 1, st, l => by
    intro hsp hd hlen
    have hev := expiry_normal f { st with sRescheduleNeeded := false } l hsp hd (by omega)
    rw [exec_resched_ok hsp hev]
    dsimp only
    simp only [armResult]
    rw [if_neg (by
      have := @selectLoop_nonneg (expireHeap st.heap st.now l) st.now
        (survivors st.heap st.now l) 0 le_rfl
      omega)]
    rfl

/-! ## The selection pass computes the clamped earliest deadline -/

theorem selectLoop_all_pos {h : Nat → Timer} {now : Int} :
    ∀ l acc, 1 ≤ acc → (∀ t ∈ l, 1 ≤ (h t).mExpires - now) →
      selectLoop h now l acc = (l.map fun t => (h t).mExpires - now).foldl min acc
  | [], acc => by intro _ _; rfl
  | t :: rest, acc => by
    intro ha hl
    have ht : 1 ≤ (h t).mExpires - now := hl t (by simp)
    simp only [selectLoop, List.map_cons, List.foldl_cons]
    rw [if_neg (show ¬((h t).mExpires - now ≤ 0) by omega)]
    have hupdate : (if acc = 0 ∨ acc > (h t).mExpires - now then (h t).mExpires - now else acc)
        = min acc ((h t).mExpires - now) := by
      by_cases hgt : acc > (h t).mExpires - now
      · rw [if_pos (Or.inr hgt), min_eq_right (by omega)]
      · rw [if_neg (by push_neg; exact ⟨by omega, by omega⟩), min_eq_left (by omega)]
    rw [hupdate]
    exact selectLoop_all_pos rest _ (le_min ha ht) (fun u hu => hl u (by simp [hu]))

theorem foldl_min_ge : ∀ (xs : List Int) (a c : Int), c ≤ a → (∀ x ∈ xs, c ≤ x) →
    c ≤ xs.foldl min a
  | [], a, c => by intro h _; simpa using h
  | x :: xs, a, c => by
    intro ha hxs
    simp only [List.foldl_cons]
    exact foldl_min_ge xs _ c (le_min ha (hxs x (by simp))) (fun y hy => hxs y (by simp [hy]))

theorem minOver_pos {l : List Int} (hne : l ≠ []) (hpos : ∀ x ∈ l, 1 ≤ x) :
    1 ≤ minOver l := by
  match l, hne with
  | x :: xs, _ =>
    simp only [minOver]
    exact foldl_min_ge xs x 1 (hpos x (by simp)) (fun y hy => hpos y (by simp [hy]))

theorem selectLoop_eq_minOver {h : Nat → Timer} {now : Int} {l : List Nat}
    (hne : l ≠ []) (hpos : ∀ t ∈ l, 1 ≤ (h t).mExpires - now) :
    selectLoop h now l 0 = minOver (l.map fun t => (h t).mExpires - now) := by
  match l, hne with
  | t :: rest, _ =>
    have ht : 1 ≤ (h t).mExpires - now := hpos t (by simp)
    simp only [selectLoop]
    rw [if_neg (show ¬((h t).mExpires - now ≤ 0) by omega),
      if_pos (Or.inl trivial),
      selectLoop_all_pos rest _ ht (fun u hu => hpos u (by simp [hu]))]
    simp [minOver]

theorem delayOf_armPair (t : Int) : delayOf (armPair t) = t := by
  simp only [delayOf, armPair, BoxTimeToSeconds, BoxTimeToMicroSeconds]
  rw [Int.mul_comm]
  exact Int.tdiv_add_tmod t MICRO_SEC_IN_SEC

/-! ## Re-entry divergence: `Timers::Add` called from `OnExpire` -/

theorem exec_ctor_pos_some {f : Nat} {st : TimersState} {secs : Nat} {l : List Nat}
    (hs : secs ≠ 0) (hsp : st.spTimers = some l) :
    exec (f + 2) (Call.ctor secs st) =
      exec f (Call.resched { st with
        heap := setTimer st.heap st.nextId
          ⟨st.now + SecondsToBoxTime secs, false, Behavior.default⟩,
        spTimers := some (l ++ [st.nextId]),
        nextId := st.nextId + 1 }) := by
  rw [exec_ctor_pos hs]
  rw [exec_addT_some (show ({ st with
      heap := setTimer st.heap st.nextId
        ⟨st.now + SecondsToBoxTime secs, false, Behavior.default⟩,
      nextId := st.nextId + 1 } : TimersState).spTimers = some l from hsp)]

theorem resched_diverges_aux :
    ∀ fuel st rest, st.spTimers = some (0 :: rest) →
      dueAt st.heap st.now 0 → (st.heap 0).behavior = Behavior.addThen [1] →
      1 ≤ st.nextId →
      exec fuel (Call.resched st) = Outcome.fault := by
  intro fuel
  induction fuel using Nat.strong_induction_on with
  | _ fuel IH =>
    intro st rest hsp hdue hb hnext
    obtain _ | f := fuel
    · rfl
    · have hsp' : ({ st with sRescheduleNeeded := false } : TimersState).spTimers
          = some (0 :: rest) := hsp
      have hexp : exec f (Call.expiry { st with sRescheduleNeeded := false })
          = Outcome.fault := by
        obtain _ | g := f
        · rfl
        · have hfd : findDueSplit ({ st with sRescheduleNeeded := false } : TimersState).heap
              ({ st with sRescheduleNeeded := false } : TimersState).now (0 :: rest)
              = some ([], 0, rest) := by
            simp only [findDueSplit]
            rw [if_pos (show (st.heap 0).mExpires - st.now ≤ 0 from hdue)]
          have hoe : exec g (Call.onExpire 0 { st with sRescheduleNeeded := false })
              = Outcome.fault := by
            obtain _ | g := g
            · rfl
            · have hce : exec g
                  (Call.constructEach [1] { st with sRescheduleNeeded := false })
                  = Outcome.fault := by
                obtain _ | g := g
                · rfl
                · have hct : exec g
                      (Call.ctor 1 { st with sRescheduleNeeded := false })
                      = Outcome.fault := by
                    obtain _ | g := g
                    · rfl
                    · obtain _ | g := g
                      · rfl
                      · rw [exec_ctor_pos_some (by omega) hsp']
                        apply IH g (by omega) _ (rest ++ [st.nextId])
                        · rfl
                        · show dueAt _ _ 0
                          unfold dueAt
                          simp only [setTimer]
                          rw [if_neg (show ¬(0 = st.nextId) by omega)]
                          exact hdue
                        · show Timer.behavior _ = _
                          simp only [setTimer]
                          rw [if_neg (show ¬(0 = st.nextId) by omega)]
                          exact hb
                        · show 1 ≤ st.nextId + 1
                          omega
                  exact exec_construct_cons_fault hct
              exact exec_onExpire_addThen_fault hb hce
          exact exec_expiry_step_fault hsp' hfd hoe
      exact exec_resched_fault hsp hexp

/-! ## Helpers for concrete witness states -/

theorem allDefault_baseHeap : allDefault baseHeap := fun _ => rfl

theorem allDefault_setTimer {h : Nat → Timer} (hall : allDefault h)
    (i : Nat) (e : Int) (b : Bool) :
    allDefault (setTimer h i ⟨e, b, Behavior.default⟩) := by
  intro j
  unfold setTimer
  by_cases hj : j = i
  · simp [hj]
  · simp [hj, hall j]

/-! ## Claim C1 -/

/-- C1, counterexample: on a set whose single member is due at `now` and
whose `OnExpire` constructs a `Timer(1)` (hence calls `Timers::Add`),
`Timers::Reschedule` never returns: `Add` re-enters `Reschedule`, which
finds the dispatched timer still in the vector (it is erased only after
`OnExpire` returns) and invokes its `OnExpire` again, without bound.  In
particular the timer added by the callback is neither dispatched nor
selected before `Reschedule` returns — `Reschedule` does not return. -/
theorem c1_add_from_onexpire_diverges : rescheduleDivergesAt c1State := by
  intro fuel
  exact resched_diverges_aux fuel c1State [] rfl (by decide) (by decide) (by decide)

/-- C1, amended: during `Reschedule` over a set whose callbacks are all the
base-class `OnExpire` (which sets the expired flag and does not touch the
set), every member whose `expires_at` is less than or equal to the time
read at the start of the pass — including exactly equal — has its
`OnExpire` invoked (its `mExpired` flag becomes true) and every
back-reference to it is removed before `Reschedule` returns; the members
kept are exactly those not yet due, in order. -/
theorem c1_reschedule_dispatches_due (fuel : Nat) (st : TimersState) (l : List Nat)
    (hsp : st.spTimers = some l) (hd : allDefault st.heap)
    (hfuel : l.length + 1 < fuel) :
    isOk (Timers.Reschedule fuel st) = true ∧
    membersAfter (Timers.Reschedule fuel st) = some (survivors st.heap st.now l) ∧
    ∀ t ∈ l, dueAt st.heap st.now t →
      heapAt (Timers.Reschedule fuel st) t =
        some ⟨(st.heap t).mExpires, true, (st.heap t).behavior⟩ ∧
      countAfter (Timers.Reschedule fuel st) t = 0 := by
  have hnf := resched_normal fuel st l hsp hd hfuel
  unfold Timers.Reschedule
  rw [hnf]
  refine ⟨rfl, rfl, ?_⟩
  intro t ht hdue
  constructor
  · show some (expireHeap st.heap st.now l t) = _
    unfold expireHeap
    rw [if_pos ⟨ht, hdue⟩]
  · show (survivors st.heap st.now l).count t = 0
    refine List.count_eq_zero.mpr ?_
    intro hmem
    unfold survivors at hmem
    rw [List.mem_filter] at hmem
    simp only [Bool.not_eq_true', decide_eq_false_iff_not] at hmem
    exact hmem.2 hdue

/-- C1, witness: a due timer (deadline = `now`) ahead of a future one; the
due member is dispatched and removed, the future one is kept. -/
theorem c1_reschedule_dispatches_due_witness :
    c3StateB.spTimers = some [0, 1] ∧ allDefault c3StateB.heap ∧
    (isOk (Timers.Reschedule 4 c3StateB) = true ∧
     membersAfter (Timers.Reschedule 4 c3StateB) =
       some (survivors c3StateB.heap c3StateB.now [0, 1]) ∧
     ∀ t ∈ ([0, 1] : List Nat), dueAt c3StateB.heap c3StateB.now t →
       heapAt (Timers.Reschedule 4 c3StateB) t =
         some ⟨(c3StateB.heap t).mExpires, true, (c3StateB.heap t).behavior⟩ ∧
       countAfter (Timers.Reschedule 4 c3StateB) t = 0) :=
  ⟨rfl,
   allDefault_setTimer (allDefault_setTimer allDefault_baseHeap 0 50 false) 1 900 false,
   c1_reschedule_dispatches_due 4 c3StateB [0, 1] rfl
     (allDefault_setTimer (allDefault_setTimer allDefault_baseHeap 0 50 false) 1 900 false)
     (by decide)⟩

/-! ## Claim C2 -/

/-- Decomposition of a normally-returning `Timers::Reschedule`: it is the
expiry pass on the flag-cleared state followed by the selection pass and
the `setitimer` call. -/
theorem resched_ok_elim {f : Nat} {st st' : TimersState}
    (hex : exec f (Call.resched st) = Outcome.ok st') :
    ∃ f' st₁ l₁, f = f' + 1 ∧
      exec f' (Call.expiry { st with sRescheduleNeeded := false }) = Outcome.ok st₁ ∧
      st₁.spTimers = some l₁ ∧
      st' = { st₁ with itimer := armPair (selectLoop st₁.heap st₁.now l₁ 0) } := by
  match f with
  | 0 => simp [exec] at hex
  | f + 1 =>
    cases hsp : st.spTimers with
    | none => rw [exec_resched_none hsp] at hex; cases hex
    | some l =>
      cases hev : exec f (.expiry { st with sRescheduleNeeded := false }) with
      | ok st₁ =>
        rw [exec_resched_ok hsp hev] at hex
        cases hsp₁ : st₁.spTimers with
        | none => simp [armResult, hsp₁] at hex
        | some l₁ =>
          simp only [armResult, hsp₁] at hex
          by_cases hlt : selectLoop st₁.heap st₁.now l₁ 0 < 0
          · rw [if_pos hlt] at hex; cases hex
          · rw [if_neg hlt] at hex
            injection hex with hst
            rw [← hsp₁] at hst
            rw [hsp] at hev
            exact ⟨f, st₁, l₁, rfl, hev, hsp₁, hst.symm⟩
      | exc st₁ => rw [exec_resched_exc hsp hev] at hex; cases hex
      | fault => rw [exec_resched_fault hsp hev] at hex; cases hex

/-- C2: whenever `Timers::Reschedule` returns normally, the OS interval
timer is disarmed (a zeroed `itimerval`) if the set came out empty, and
otherwise is armed with a delay of exactly
`max(min over members of (expires_at − now), 1µs)` microseconds, where
`now` is the instant read at the start of the pass (unchanged in the
final state). -/
theorem c2_arm_delay_spec (fuel : Nat) (st st' : TimersState)
    (hex : Timers.Reschedule fuel st = Outcome.ok st') :
    (st'.spTimers = some [] → st'.itimer = (0, 0)) ∧
    (∀ l', st'.spTimers = some l' → l' ≠ [] →
      delayOf st'.itimer =
        max (minOver (l'.map fun t => (st'.heap t).mExpires - st'.now)) 1) := by
  obtain ⟨f', st₁, l₁, rfl, hev, hsp₁, rfl⟩ := resched_ok_elim hex
  have hnodue := expiry_ok_noDue f' _ st₁ hev l₁ hsp₁
  constructor
  · intro hempty
    have : some l₁ = some [] := by rw [← hsp₁]; exact hempty
    obtain rfl : l₁ = [] := by cases this; rfl
    show armPair (selectLoop st₁.heap st₁.now [] 0) = (0, 0)
    rfl
  · intro l' hsp' hne
    have : some l₁ = some l' := by rw [← hsp₁]; exact hsp'
    obtain rfl : l₁ = l' := by cases this; rfl
    have hpos : ∀ t ∈ l₁, 1 ≤ (st₁.heap t).mExpires - st₁.now := by
      intro t ht
      have := hnodue t ht
      unfold dueAt at this
      omega
    show delayOf (armPair (selectLoop st₁.heap st₁.now l₁ 0)) = _
    rw [delayOf_armPair, selectLoop_eq_minOver hne hpos]
    refine (max_eq_left ?_).symm
    refine minOver_pos (by simpa using hne) ?_
    intro x hx
    rw [List.mem_map] at hx
    obtain ⟨t, ht, rfl⟩ := hx
    exact hpos t ht

/-- C2, witness: a single member whose deadline is exactly 1µs in the
future yields an `Arm` of exactly 1µs (`itimerval` `(0 s, 1 µs)`), and
the armed delay equals the claimed formula. -/
theorem c2_arm_delay_spec_witness :
    delayOf (rescheduledState c2State [0]).itimer =
      max (minOver (([0] : List Nat).map fun t =>
        ((rescheduledState c2State [0]).heap t).mExpires -
          (rescheduledState c2State [0]).now)) 1 ∧
    (rescheduledState c2State [0]).itimer = (0, 1) := by
  refine ⟨?_, by decide⟩
  exact (c2_arm_delay_spec 4 c2State (rescheduledState c2State [0])
    (resched_normal 4 c2State [0] rfl
      (allDefault_setTimer allDefault_baseHeap 0 1000001 false) (by decide))).2
    [0] rfl (by simp)

/-! ## Claim C9 -/

/-- C9, counterexample: a set member carrying the sentinel `expires_at == 0`
is not removed silently — its `OnExpire` is invoked like any expired
timer (the default `OnExpire` sets its expired flag), and it is removed
through the ordinary expiry path. -/
theorem c9_zero_expiry_member_fires :
    heapAt (Timers.Reschedule 4 c9State) 5 = some ⟨0, true, Behavior.default⟩ ∧
    membersAfter (Timers.Reschedule 4 c9State) = some [] := by
  decide

/-- C9, amended: a set member with `expires_at == 0` encountered during
`Reschedule` is treated as an already-due timer: its `OnExpire` IS
invoked (with the base-class callback its expired flag becomes true) and
every back-reference to it is removed, through the ordinary expiry path
(there is no special defensive branch; the logging is the ordinary
trace-level expiry message). -/
theorem c9_zero_expiry_member_dispatched (fuel : Nat) (st : TimersState)
    (l : List Nat) (tid : Nat)
    (hsp : st.spTimers = some l) (hd : allDefault st.heap) (ht : tid ∈ l)
    (hzero : (st.heap tid).mExpires = 0) (hnow : 0 ≤ st.now)
    (hfuel : l.length + 1 < fuel) :
    isOk (Timers.Reschedule fuel st) = true ∧
    heapAt (Timers.Reschedule fuel st) tid =
      some ⟨0, true, (st.heap tid).behavior⟩ ∧
    countAfter (Timers.Reschedule fuel st) tid = 0 := by
  have hdue : dueAt st.heap st.now tid := by
    unfold dueAt
    omega
  have hnf := resched_normal fuel st l hsp hd hfuel
  unfold Timers.Reschedule
  rw [hnf]
  refine ⟨rfl, ?_, ?_⟩
  · show some (expireHeap st.heap st.now l tid) = _
    unfold expireHeap
    rw [if_pos ⟨ht, hdue⟩]
    simp [hzero]
  · show (survivors st.heap st.now l).count tid = 0
    refine List.count_eq_zero.mpr ?_
    intro hmem
    unfold survivors at hmem
    rw [List.mem_filter] at hmem
    simp only [Bool.not_eq_true', decide_eq_false_iff_not] at hmem
    exact hmem.2 hdue

/-- C9, witness for the amended statement at the concrete invariant-breach
state. -/
theorem c9_zero_expiry_member_dispatched_witness :
    c9State.spTimers = some [5] ∧ (c9State.heap 5).mExpires = 0 ∧
    (isOk (Timers.Reschedule 4 c9State) = true ∧
     heapAt (Timers.Reschedule 4 c9State) 5 =
       some ⟨0, true, (c9State.heap 5).behavior⟩ ∧
     countAfter (Timers.Reschedule 4 c9State) 5 = 0) :=
  ⟨rfl, by decide,
   c9_zero_expiry_member_dispatched 4 c9State [5] 5 rfl
     (allDefault_setTimer allDefault_baseHeap 5 0 false)
     (by decide) (by decide) (by decide) (by decide)⟩

/-! ## Claim C3 -/

/-- C3, counterexample: the dispatched timer is erased only AFTER its
`OnExpire` returns (`Timer.cpp` lines 160-161), so when the callback
throws, the exception propagates out of `Reschedule` with the dispatched
timer STILL a member of the set. -/
theorem c3_throwing_callback_timer_still_member :
    isExc (Timers.Reschedule 3 c3State) = true ∧
    membersAfter (Timers.Reschedule 3 c3State) = some [0] := by
  decide

/-- C3, amended: a timer dispatched during the expiry pass is removed from
the set immediately AFTER its `OnExpire` callback returns (and the scan
restarts); if the callback throws, the erase is skipped and the
dispatched timer is still a member of the set (which is otherwise
unchanged, with the flag cleared) when the exception propagates out of
`Reschedule`. -/
theorem c3_removal_after_onexpire (f : Nat) (st : TimersState)
    (l pre post : List Nat) (t : Nat)
    (hsp : st.spTimers = some l)
    (hfd : findDueSplit st.heap st.now l = some (pre, t, post)) :
    ((st.heap t).behavior = Behavior.throws →
      Timers.Reschedule (f + 3) st =
        Outcome.exc { st with sRescheduleNeeded := false } ∧ t ∈ l) ∧
    ((st.heap t).behavior = Behavior.default →
      exec (f + 2) (Call.expiry st) =
        exec (f + 1) (Call.expiry
          { markExpired st t with spTimers := some (pre ++ post) })) := by
  obtain ⟨hl, hdue, -⟩ := findDueSplit_some hfd
  constructor
  · intro hb
    constructor
    · have hsp' : ({ st with sRescheduleNeeded := false } : TimersState).spTimers
          = some l := hsp
      have hoe : exec (f + 1)
          (Call.onExpire t { st with sRescheduleNeeded := false })
          = Outcome.exc { st with sRescheduleNeeded := false } :=
        exec_onExpire_throws hb
      exact exec_resched_exc hsp (exec_expiry_step_exc hsp' hfd hoe)
    · rw [hl]; simp
  · intro hb
    have hsp₁ : (markExpired st t).spTimers = some l :=
      (markExpired_spTimers st t).trans hsp
    rw [exec_expiry_step hsp hfd (exec_onExpire_default hb) hsp₁]
    have he : l.eraseIdx pre.length = pre ++ post := by
      rw [hl]; exact eraseIdx_append_cons pre post t
    rw [he]

/-- C3, witness: at the concrete throwing-callback state, the exception
propagates with the timer still in the set; fuel `0 + 3`. -/
theorem c3_removal_after_onexpire_witness :
    c3State.spTimers = some [0] ∧
    findDueSplit c3State.heap c3State.now [0] = some ([], 0, []) ∧
    (Timers.Reschedule 3 c3State =
      Outcome.exc { c3State with sRescheduleNeeded := false } ∧
     0 ∈ ([0] : List Nat)) :=
  ⟨rfl, by decide,
   (c3_removal_after_onexpire 0 c3State [0] [] [] 0 rfl (by decide)).1 (by decide)⟩

/-! ## Claim C4 -/

theorem expireHeap_mExpires (h : Nat → Timer) (now : Int) (l : List Nat) :
    ∀ j, (expireHeap h now l j).mExpires = (h j).mExpires := by
  intro j
  unfold expireHeap
  split
  · rfl
  · rfl

theorem expireHeap_behavior (h : Nat → Timer) (now : Int) (l : List Nat) :
    ∀ j, (expireHeap h now l j).behavior = (h j).behavior := by
  intro j
  unfold expireHeap
  split
  · rfl
  · rfl

theorem allDefault_expireHeap {h : Nat → Timer} {now : Int} {l : List Nat}
    (hd : allDefault h) : allDefault (expireHeap h now l) := by
  intro j
  rw [expireHeap_behavior h now l j]
  exact hd j

theorem expireHeap_of_noDue {h : Nat → Timer} {now : Int} {l : List Nat}
    (hnd : ∀ t ∈ l, ¬ dueAt h now t) : expireHeap h now l = h := by
  funext j
  unfold expireHeap
  rw [if_neg]
  rintro ⟨hj, hdj⟩
  exact hnd j hj hdj

theorem mem_survivors {h : Nat → Timer} {now : Int} {l : List Nat} {t : Nat}
    (ht : t ∈ survivors h now l) : t ∈ l ∧ ¬ dueAt h now t := by
  unfold survivors at ht
  rw [List.mem_filter] at ht
  refine ⟨ht.1, ?_⟩
  have := ht.2
  simpa using this

theorem survivors_noDue (st : TimersState) (l : List Nat) :
    ∀ t ∈ survivors st.heap st.now l,
      ¬ dueAt (rescheduledState st l).heap (rescheduledState st l).now t := by
  intro t ht hdt
  have h1 := mem_survivors ht
  apply h1.2
  unfold dueAt at hdt ⊢
  have := expireHeap_mExpires st.heap st.now l t
  show (st.heap t).mExpires - st.now ≤ 0
  rw [← this]
  exact hdt

/-- A state that is already in rescheduled form is a fixed point of the
reschedule transformation. -/
theorem rescheduledState_fixed {st : TimersState} {l : List Nat}
    (hsp : st.spTimers = some l)
    (hflag : st.sRescheduleNeeded = false)
    (hnd : ∀ t ∈ l, ¬ dueAt st.heap st.now t)
    (hit : st.itimer = armPair (selectLoop st.heap st.now l 0)) :
    rescheduledState st l = st := by
  have hsur : survivors st.heap st.now l = l := by
    refine List.filter_eq_self.mpr ?_
    intro a ha
    simpa using hnd a ha
  have hhp : expireHeap st.heap st.now l = st.heap := expireHeap_of_noDue hnd
  unfold rescheduledState
  rw [hsur, hhp, ← hit, ← hflag, ← hsp]

theorem timers_remove_run {fuel : Nat} {st : TimersState} {tid : Nat} {l : List Nat}
    (hsp : st.spTimers = some l) :
    Timers.Remove fuel tid st =
      exec fuel (Call.resched { st with spTimers := some (removeLoop l tid) }) := by
  simp [Timers.Remove, hsp]

/-- C4: with base-class callbacks, `Timers::Remove(t)` (a) returns normally
whether or not `t` is a member, (b) leaves no back-reference to `t` in
the set — even if `t` had been pushed multiple times — and (c) is
idempotent: an immediately repeated `Remove(t)` returns the exact same
state, changing nothing beyond the first call. -/
theorem c4_remove_spec (fuel fuel' : Nat) (st : TimersState) (l : List Nat) (tid : Nat)
    (hsp : st.spTimers = some l) (hd : allDefault st.heap)
    (hfuel : l.length + 2 < fuel) (hfuel' : l.length + 2 < fuel') :
    isOk (Timers.Remove fuel tid st) = true ∧
    countAfter (Timers.Remove fuel tid st) tid = 0 ∧
    andThen (Timers.Remove fuel tid st) (Timers.Remove fuel' tid) =
      Timers.Remove fuel tid st := by
  have hrl : removeLoop l tid = l.filter (· ≠ tid) := removeLoop_eq_filter l tid
  have hlenR : (removeLoop l tid).length ≤ l.length := by
    rw [hrl]; exact List.length_filter_le _ l
  have hnfR := resched_normal fuel
    { st with spTimers := some (removeLoop l tid) } (removeLoop l tid)
    rfl hd (by omega)
  rw [timers_remove_run hsp, hnfR]
  have htid : tid ∉ removeLoop l tid := by
    rw [hrl]
    intro hmem
    rw [List.mem_filter] at hmem
    simp at hmem
  refine ⟨rfl, ?_, ?_⟩
  · show (survivors st.heap st.now (removeLoop l tid)).count tid = 0
    refine List.count_eq_zero.mpr ?_
    intro hmem
    exact htid (mem_survivors hmem).1
  · show Timers.Remove fuel' tid
        (rescheduledState { st with spTimers := some (removeLoop l tid) } (removeLoop l tid))
      = _
    have htid₂ : tid ∉ survivors st.heap st.now (removeLoop l tid) := by
      intro hmem
      exact htid (mem_survivors hmem).1
    have hrl₂ : removeLoop (survivors st.heap st.now (removeLoop l tid)) tid =
        survivors st.heap st.now (removeLoop l tid) := by
      rw [removeLoop_eq_filter]
      refine List.filter_eq_self.mpr ?_
      intro a ha
      simp only [ne_eq, decide_eq_true_eq]
      rintro rfl
      exact htid₂ ha
    rw [timers_remove_run
      (show (rescheduledState { st with spTimers := some (removeLoop l tid) }
        (removeLoop l tid)).spTimers = some (survivors st.heap st.now (removeLoop l tid))
        from rfl), hrl₂]
    have hlen₂ : (survivors st.heap st.now (removeLoop l tid)).length ≤ l.length := by
      calc (survivors st.heap st.now (removeLoop l tid)).length
          ≤ (removeLoop l tid).length := List.length_filter_le _ _
        _ ≤ l.length := hlenR
    have hd₂ : allDefault (rescheduledState
        { st with spTimers := some (removeLoop l tid) } (removeLoop l tid)).heap :=
      allDefault_expireHeap hd
    rw [show ({ rescheduledState { st with spTimers := some (removeLoop l tid) }
        (removeLoop l tid) with
        spTimers := some (survivors st.heap st.now (removeLoop l tid)) } : TimersState) =
      rescheduledState { st with spTimers := some (removeLoop l tid) } (removeLoop l tid)
      from rfl]
    rw [resched_normal fuel' _ (survivors st.heap st.now (removeLoop l tid))
      rfl hd₂ (by omega)]
    rw [rescheduledState_fixed rfl rfl
      (survivors_noDue { st with spTimers := some (removeLoop l tid) } (removeLoop l tid))
      rfl]

/-- C4, witness: timer 1 is a member three times over; one `Remove` clears
all three back-references and a second `Remove` is a no-op. -/
theorem c4_remove_spec_witness :
    c4State.spTimers = some [1, 2, 1, 3, 1] ∧
    (isOk (Timers.Remove 9 1 c4State) = true ∧
     countAfter (Timers.Remove 9 1 c4State) 1 = 0 ∧
     andThen (Timers.Remove 9 1 c4State) (Timers.Remove 8 1) =
       Timers.Remove 9 1 c4State) :=
  ⟨rfl,
   c4_remove_spec 9 8 c4State [1, 2, 1, 3, 1] 1 rfl
     (allDefault_setTimer (allDefault_setTimer (allDefault_setTimer
       allDefault_baseHeap 1 5000000 false) 2 3000000 false) 3 7000000 false)
     (by decide) (by decide)⟩

/-! ## Claim C5 -/

/-- C5 (code bug): `Timer::~Timer` unconditionally calls `Timers::Remove`,
which asserts `spTimers` and dereferences it; after `Timers::Cleanup`
has set `spTimers = NULL`, destroying a surviving Timer value faults
instead of behaving as "never fires".  (`Cleanup` itself does disarm the
OS interval timer and discard the set, and a subsequent poll cannot fire
any callback — it faults on the missing set rather than dispatching.) -/
theorem c5_dtor_after_cleanup_faults :
    Timers.Cleanup c5State =
      Outcome.ok { c5State with itimer := (0, 0), spTimers := none } ∧
    andThen (Timers.Cleanup c5State) (Timer.dtor 10 0) = Outcome.fault ∧
    Timers.PollIfNeeded 10
      { c5State with itimer := (0, 0), spTimers := none, sRescheduleNeeded := true } =
      Outcome.fault :=
  ⟨rfl, rfl, rfl⟩

/-! ## Claim C6 -/

theorem allDefault_setTimer_obj {h : Nat → Timer} (hall : allDefault h)
    {i : Nat} {o : Timer} (ho : o.behavior = Behavior.default) :
    allDefault (setTimer h i o) := by
  intro j
  unfold setTimer
  by_cases hj : j = i
  · simp [hj, ho]
  · simp [hj, hall j]

/-- C6: `Timer::Timer(size_t)` with timeout 0 writes the sentinel
`expires_at = 0`, a cleared expired flag, and never touches the set;
with timeout `T > 0` it sets `expires_at = now + T·10⁶`, a cleared
expired flag, and joins the set as one new member. -/
theorem c6_ctor_spec (fuel : Nat) (st : TimersState) (l : List Nat) (secs : Nat)
    (hsp : st.spTimers = some l) (hd : allDefault st.heap)
    (hfresh : st.nextId ∉ l) (hfuel : l.length + 4 < fuel) :
    (isOk (Timer.ctorTimeout fuel 0 st) = true ∧
     heapAt (Timer.ctorTimeout fuel 0 st) st.nextId =
       some ⟨0, false, Behavior.default⟩ ∧
     membersAfter (Timer.ctorTimeout fuel 0 st) = some l) ∧
    (secs ≠ 0 →
      isOk (Timer.ctorTimeout fuel secs st) = true ∧
      heapAt (Timer.ctorTimeout fuel secs st) st.nextId =
        some ⟨st.now + (secs : Int) * 1000000, false, Behavior.default⟩ ∧
      countAfter (Timer.ctorTimeout fuel secs st) st.nextId = 1) := by
  obtain ⟨f, rfl⟩ : ∃ f, fuel = f + 2 := ⟨fuel - 2, by omega⟩
  constructor
  · unfold Timer.ctorTimeout
    rw [exec_ctor_zero]
    refine ⟨rfl, ?_, ?_⟩
    · show some (setTimer (setTimer st.heap st.nextId _) st.nextId _ st.nextId) = _
      simp [setTimer]
    · show st.spTimers = some l
      exact hsp
  · intro hs
    unfold Timer.ctorTimeout
    rw [exec_ctor_pos_some hs hsp]
    have hd₂ : allDefault (setTimer st.heap st.nextId
        ⟨st.now + SecondsToBoxTime secs, false, Behavior.default⟩) :=
      allDefault_setTimer_obj hd rfl
    have hnf := resched_normal f
      { st with
        heap := setTimer st.heap st.nextId
          ⟨st.now + SecondsToBoxTime secs, false, Behavior.default⟩,
        spTimers := some (l ++ [st.nextId]),
        nextId := st.nextId + 1 }
      (l ++ [st.nextId]) rfl hd₂ (by simp [List.length_append]; omega)
    rw [hnf]
    have hnotdue : ¬ dueAt (setTimer st.heap st.nextId
        ⟨st.now + SecondsToBoxTime secs, false, Behavior.default⟩) st.now st.nextId := by
      unfold dueAt setTimer
      simp only [if_pos rfl]
      show ¬(st.now + SecondsToBoxTime secs - st.now ≤ 0)
      unfold SecondsToBoxTime MICRO_SEC_IN_SEC
      have h1 : 1 ≤ secs := Nat.one_le_iff_ne_zero.mpr hs
      have h1' : (1 : Int) ≤ (secs : Int) := by exact_mod_cast h1
      nlinarith
    refine ⟨rfl, ?_, ?_⟩
    · show some (expireHeap _ st.now (l ++ [st.nextId]) st.nextId) = _
      unfold expireHeap
      rw [if_neg (by rintro ⟨-, hdj⟩; exact hnotdue hdj)]
      show some (setTimer st.heap st.nextId _ st.nextId) = _
      simp [setTimer]
      rfl
    · show (survivors _ st.now (l ++ [st.nextId])).count st.nextId = 1
      rw [survivors_append]
      rw [List.count_append]
      have h0 : (survivors (setTimer st.heap st.nextId
          ⟨st.now + SecondsToBoxTime secs, false, Behavior.default⟩) st.now l).count
          st.nextId = 0 := by
        refine List.count_eq_zero.mpr ?_
        intro hmem
        exact hfresh (mem_survivors hmem).1
      rw [h0, survivors_cons_not_due _ _ _ hnotdue]
      simp [survivors]

/-! ## Claim C7 -/

theorem timer_assign_run {fuel : Nat} {st st₁ : TimersState} {dst src : Nat}
    (hrem : Timers.Remove fuel dst st = Outcome.ok st₁) :
    Timer.assign fuel dst src st =
      (if (st₁.heap src).mExpired = false ∧ (st₁.heap src).mExpires ≠ 0
       then Timers.Add fuel dst { st₁ with
         heap := setTimer st₁.heap dst
           ⟨(st₁.heap src).mExpires, (st₁.heap src).mExpired, (st₁.heap dst).behavior⟩ }
       else Outcome.ok { st₁ with
         heap := setTimer st₁.heap dst
           ⟨(st₁.heap src).mExpires, (st₁.heap src).mExpired, (st₁.heap dst).behavior⟩ }) := by
  simp only [Timer.assign, hrem]

/-- `Timers::Add` of a fresh timer over a base-class set, in closed form. -/
theorem add_normal (f : Nat) (st : TimersState) (l : List Nat) (tid : Nat)
    (hsp : st.spTimers = some l) (hd : allDefault st.heap)
    (hflen : l.length + 3 < f) :
    Timers.Add f tid st = Outcome.ok
      (rescheduledState { st with spTimers := some (l ++ [tid]) } (l ++ [tid])) := by
  obtain ⟨g, rfl⟩ : ∃ g, f = g + 1 := ⟨f - 1, by omega⟩
  unfold Timers.Add
  rw [exec_addT_some hsp]
  exact resched_normal g _ (l ++ [tid]) rfl hd (by simp [List.length_append]; omega)

/-- Writing a future-deadline, base-class timer object through a fresh
address and registering it: the effect of the registration tails of
`Timer::operator=`, `Timer::Timer(const Timer&)` and
`Timer::Timer(size_t)` over a set of non-due members.  The new address
joins as a single member holding exactly the written object; every other
address keeps its object and its count of back-references. -/
theorem add_armed_tail (f : Nat) (st₁ : TimersState) (l₁ : List Nat) (dst : Nat) (o : Timer)
    (hsp₁ : st₁.spTimers = some l₁) (hd₁ : allDefault st₁.heap)
    (hdst : dst ∉ l₁)
    (hnodue₁ : ∀ t ∈ l₁, ¬ dueAt st₁.heap st₁.now t)
    (hfut : st₁.now < o.mExpires)
    (ho : o.behavior = Behavior.default)
    (hflen : l₁.length + 3 < f) :
    isOk (Timers.Add f dst { st₁ with heap := setTimer st₁.heap dst o }) = true ∧
    heapAt (Timers.Add f dst { st₁ with heap := setTimer st₁.heap dst o }) dst = some o ∧
    countAfter (Timers.Add f dst { st₁ with heap := setTimer st₁.heap dst o }) dst = 1 ∧
    (∀ j, j ≠ dst →
      heapAt (Timers.Add f dst { st₁ with heap := setTimer st₁.heap dst o }) j =
        some (st₁.heap j)) ∧
    (∀ j, j ≠ dst →
      countAfter (Timers.Add f dst { st₁ with heap := setTimer st₁.heap dst o }) j =
        l₁.count j) := by
  have hd₂ : allDefault (setTimer st₁.heap dst o) := allDefault_setTimer_obj hd₁ ho
  rw [add_normal f { st₁ with heap := setTimer st₁.heap dst o } l₁ dst hsp₁ hd₂ hflen]
  dsimp only
  have hheap : ∀ j, j ≠ dst → setTimer st₁.heap dst o j = st₁.heap j := by
    intro j hj
    unfold setTimer
    rw [if_neg hj]
  have hheapd : setTimer st₁.heap dst o dst = o := by
    unfold setTimer
    rw [if_pos rfl]
  have hnodued : ¬ dueAt (setTimer st₁.heap dst o) st₁.now dst := by
    unfold dueAt
    rw [hheapd]
    omega
  have hnodue₂ : ∀ t ∈ l₁, ¬ dueAt (setTimer st₁.heap dst o) st₁.now t := by
    intro t ht
    have htd : t ≠ dst := fun h => hdst (h ▸ ht)
    unfold dueAt
    rw [hheap t htd]
    exact hnodue₁ t ht
  have hsurl : survivors (setTimer st₁.heap dst o) st₁.now l₁ = l₁ := by
    refine List.filter_eq_self.mpr ?_
    intro a ha
    simpa using hnodue₂ a ha
  have hmem_not : ∀ j, j ≠ dst → j ∉ l₁ → j ∉ l₁ ++ [dst] := by
    intro j hj hjl hm
    rcases List.mem_append.mp hm with hm | hm
    · exact hjl hm
    · exact hj (by simpa using hm)
  refine ⟨rfl, ?_, ?_, ?_, ?_⟩
  · show some (expireHeap _ st₁.now (l₁ ++ [dst]) dst) = _
    dsimp only
    unfold expireHeap
    rw [if_neg (by rintro ⟨-, hdj⟩; exact hnodued hdj), hheapd]
  · show (survivors _ st₁.now (l₁ ++ [dst])).count dst = 1
    dsimp only
    rw [survivors_append, List.count_append, survivors_cons_not_due _ _ _ hnodued]
    have h0 : (survivors (setTimer st₁.heap dst o) st₁.now l₁).count dst = 0 := by
      refine List.count_eq_zero.mpr ?_
      intro hmem
      exact hdst (mem_survivors hmem).1
    rw [h0]
    simp [survivors]
  · intro j hj
    show some (expireHeap _ st₁.now (l₁ ++ [dst]) j) = _
    dsimp only
    unfold expireHeap
    by_cases hjl : j ∈ l₁
    · rw [if_neg (by rintro ⟨-, hdj⟩; exact hnodue₂ j hjl hdj), hheap j hj]
    · rw [if_neg (by rintro ⟨hm, -⟩; exact hmem_not j hj hjl hm), hheap j hj]
  · intro j hj
    show (survivors _ st₁.now (l₁ ++ [dst])).count j = l₁.count j
    dsimp only
    rw [survivors_append, List.count_append, survivors_cons_not_due _ _ _ hnodued,
      hsurl]
    simp [survivors, List.count_cons, hj]

/-- C7: `t = other` first strips every back-reference to `t` (cancelling
`t`'s prior deadline), then copies `other`'s `expires_at` and `expired`
fields into `t`, then registers `t` iff `other` was neither expired nor
inert; `other`'s own object and its set back-references are unchanged.
Case split: `other` expired-or-inert (not a member, per the set
invariants) versus `other` armed with a future deadline. -/
theorem c7_assign_spec (fuel : Nat) (st : TimersState) (l : List Nat) (dst src : Nat)
    (hsp : st.spTimers = some l) (hd : allDefault st.heap)
    (hds : dst ≠ src) (hnow : 0 ≤ st.now) (hfuel : l.length + 5 < fuel) :
    (((st.heap src).mExpired = true ∨ (st.heap src).mExpires = 0) → src ∉ l →
      isOk (Timer.assign fuel dst src st) = true ∧
      heapAt (Timer.assign fuel dst src st) dst =
        some ⟨(st.heap src).mExpires, (st.heap src).mExpired, (st.heap dst).behavior⟩ ∧
      countAfter (Timer.assign fuel dst src st) dst = 0 ∧
      heapAt (Timer.assign fuel dst src st) src = some (st.heap src)) ∧
    ((st.heap src).mExpired = false → st.now < (st.heap src).mExpires →
      isOk (Timer.assign fuel dst src st) = true ∧
      heapAt (Timer.assign fuel dst src st) dst =
        some ⟨(st.heap src).mExpires, false, (st.heap dst).behavior⟩ ∧
      countAfter (Timer.assign fuel dst src st) dst = 1 ∧
      heapAt (Timer.assign fuel dst src st) src = some (st.heap src) ∧
      countAfter (Timer.assign fuel dst src st) src = l.count src) := by
  have hrl : removeLoop l dst = l.filter (· ≠ dst) := removeLoop_eq_filter l dst
  have hlenR : (removeLoop l dst).length ≤ l.length := by
    rw [hrl]; exact List.length_filter_le _ l
  have hrem : Timers.Remove fuel dst st = Outcome.ok
      (rescheduledState { st with spTimers := some (removeLoop l dst) }
        (removeLoop l dst)) := by
    rw [timers_remove_run hsp]
    exact resched_normal fuel _ (removeLoop l dst) rfl hd (by omega)
  have hdst_not : dst ∉ removeLoop l dst := by
    rw [hrl]
    intro hm
    rw [List.mem_filter] at hm
    simp at hm
  have hH1dst : (rescheduledState { st with spTimers := some (removeLoop l dst) }
      (removeLoop l dst)).heap dst = st.heap dst := by
    show expireHeap st.heap st.now (removeLoop l dst) dst = st.heap dst
    unfold expireHeap
    rw [if_neg]
    rintro ⟨hm, -⟩
    exact hdst_not hm
  rw [timer_assign_run hrem]
  constructor
  · intro hx hsrcnot
    have hsrcnotR : src ∉ removeLoop l dst := by
      rw [hrl]
      intro hm
      exact hsrcnot (List.mem_of_mem_filter hm)
    have hH1src : (rescheduledState { st with spTimers := some (removeLoop l dst) }
        (removeLoop l dst)).heap src = st.heap src := by
      show expireHeap st.heap st.now (removeLoop l dst) src = st.heap src
      unfold expireHeap
      rw [if_neg]
      rintro ⟨hm, -⟩
      exact hsrcnotR hm
    rw [if_neg (by
      rw [hH1src]
      rcases hx with hx | hx
      · rintro ⟨h1, -⟩; rw [hx] at h1; cases h1
      · rintro ⟨-, h2⟩; exact h2 hx)]
    refine ⟨rfl, ?_, ?_, ?_⟩
    · show some (setTimer _ dst _ dst) = _
      unfold setTimer
      rw [if_pos rfl, hH1src, hH1dst]
    · show (survivors st.heap st.now (removeLoop l dst)).count dst = 0
      refine List.count_eq_zero.mpr ?_
      intro hmem
      exact hdst_not (mem_survivors hmem).1
    · show some (setTimer _ dst _ src) = _
      unfold setTimer
      rw [if_neg (fun h => hds h.symm), hH1src]
  · intro hx hfut
    have hsrc_nodue : ¬ dueAt st.heap st.now src := by
      unfold dueAt
      omega
    have hH1src : (rescheduledState { st with spTimers := some (removeLoop l dst) }
        (removeLoop l dst)).heap src = st.heap src := by
      show expireHeap st.heap st.now (removeLoop l dst) src = st.heap src
      unfold expireHeap
      rw [if_neg]
      rintro ⟨-, hdj⟩
      exact hsrc_nodue hdj
    rw [if_pos (by rw [hH1src]; exact ⟨hx, by omega⟩)]
    have hdstl₁ : dst ∉ survivors st.heap st.now (removeLoop l dst) := by
      intro hmem
      exact hdst_not (mem_survivors hmem).1
    obtain ⟨hok, hdst_heap, hdst_cnt, hother_heap, hother_cnt⟩ :=
      add_armed_tail fuel
        (rescheduledState { st with spTimers := some (removeLoop l dst) }
          (removeLoop l dst))
        (survivors st.heap st.now (removeLoop l dst)) dst
        ⟨((rescheduledState { st with spTimers := some (removeLoop l dst) }
            (removeLoop l dst)).heap src).mExpires,
         ((rescheduledState { st with spTimers := some (removeLoop l dst) }
            (removeLoop l dst)).heap src).mExpired,
         ((rescheduledState { st with spTimers := some (removeLoop l dst) }
            (removeLoop l dst)).heap dst).behavior⟩
        rfl (allDefault_expireHeap hd) hdstl₁
        (survivors_noDue { st with spTimers := some (removeLoop l dst) }
          (removeLoop l dst))
        (by show st.now < _; rw [hH1src]; exact hfut)
        (by show Timer.behavior _ = _; rw [hH1dst]; exact hd dst)
        (by
          have := List.length_filter_le
            (fun t => !decide (dueAt st.heap st.now t)) (removeLoop l dst)
          show (survivors st.heap st.now (removeLoop l dst)).length + 3 < fuel
          unfold survivors
          omega)
    have ho_eq : (⟨((rescheduledState { st with spTimers := some (removeLoop l dst) }
            (removeLoop l dst)).heap src).mExpires,
         ((rescheduledState { st with spTimers := some (removeLoop l dst) }
            (removeLoop l dst)).heap src).mExpired,
         ((rescheduledState { st with spTimers := some (removeLoop l dst) }
            (removeLoop l dst)).heap dst).behavior⟩ : Timer)
        = ⟨(st.heap src).mExpires, false, (st.heap dst).behavior⟩ := by
      rw [hH1src, hH1dst, hx]
    refine ⟨hok, ?_, hdst_cnt, ?_, ?_⟩
    · exact hdst_heap.trans (congrArg some ho_eq)
    · refine (hother_heap src (fun h => hds h.symm)).trans (congrArg some hH1src)
    · rw [hother_cnt src (fun h => hds h.symm)]
      show (survivors st.heap st.now (removeLoop l dst)).count src = l.count src
      unfold survivors
      rw [List.count_filter (by simpa using hsrc_nodue), hrl,
        List.count_filter (by
          simp only [ne_eq, decide_eq_true_eq]
          exact fun h => hds h.symm)]

/-- C7, witness: both timers armed; assigning timer 1 over timer 0 cancels
timer 0's old registration and re-registers it at timer 1's deadline. -/
theorem c7_assign_spec_witness :
    c7State.spTimers = some [0, 1] ∧
    ((c7State.heap 1).mExpired = false → c7State.now < (c7State.heap 1).mExpires →
      isOk (Timer.assign 9 0 1 c7State) = true ∧
      heapAt (Timer.assign 9 0 1 c7State) 0 =
        some ⟨(c7State.heap 1).mExpires, false, (c7State.heap 0).behavior⟩ ∧
      countAfter (Timer.assign 9 0 1 c7State) 0 = 1 ∧
      heapAt (Timer.assign 9 0 1 c7State) 1 = some (c7State.heap 1) ∧
      countAfter (Timer.assign 9 0 1 c7State) 1 = ([0, 1] : List Nat).count 1) :=
  ⟨rfl,
   (c7_assign_spec 9 c7State [0, 1] 0 1 rfl
     (allDefault_setTimer (allDefault_setTimer allDefault_baseHeap 0 3000000 false)
       1 4000000 false)
     (by decide) (by decide) (by decide)).2⟩

/-! ## Claim C8 -/

theorem timer_copy_run_armed {fuel : Nat} {st : TimersState} {src : Nat}
    (hx : (st.heap src).mExpired = false) (hne : (st.heap src).mExpires ≠ 0) :
    Timer.copyCtor fuel src st = Timers.Add fuel st.nextId
      { st with
        heap := setTimer st.heap st.nextId (st.heap src),
        nextId := st.nextId + 1 } := by
  simp [Timer.copyCtor, hx, hne]

theorem timer_copy_run_inert {fuel : Nat} {st : TimersState} {src : Nat}
    (h : ¬ ((st.heap src).mExpired = false ∧ (st.heap src).mExpires ≠ 0)) :
    Timer.copyCtor fuel src st = Outcome.ok
      { st with
        heap := setTimer st.heap st.nextId (st.heap src),
        nextId := st.nextId + 1 } := by
  simp only [Timer.copyCtor, if_neg h]

/-- Destroying one timer and then letting the clock reach `T` and
rescheduling: a distinct member `n` with a deadline at or before `T`
(and a base-class callback) is dispatched: its expired flag is set and
it leaves the set. -/
theorem remove_then_fire (fuel : Nat) (s : TimersState) (ls : List Nat)
    (src n : Nat) (T : Int)
    (hsp : s.spTimers = some ls) (hd : allDefault s.heap)
    (hnodue : ∀ t ∈ ls, ¬ dueAt s.heap s.now t)
    (hmem : n ∈ ls) (hne : n ≠ src)
    (hdue : (s.heap n).mExpires ≤ T)
    (hfuel : ls.length + 5 < fuel) :
    isOk (andThen (Timer.dtor fuel src s)
      (fun s2 => Timers.Reschedule fuel { s2 with now := T })) = true ∧
    heapAt (andThen (Timer.dtor fuel src s)
      (fun s2 => Timers.Reschedule fuel { s2 with now := T })) n =
      some ⟨(s.heap n).mExpires, true, (s.heap n).behavior⟩ ∧
    countAfter (andThen (Timer.dtor fuel src s)
      (fun s2 => Timers.Reschedule fuel { s2 with now := T })) n = 0 := by
  have hrl : removeLoop ls src = ls.filter (· ≠ src) := removeLoop_eq_filter ls src
  have hlenR : (removeLoop ls src).length ≤ ls.length := by
    rw [hrl]; exact List.length_filter_le _ ls
  have hremeq : Timers.Remove fuel src s = Outcome.ok
      (rescheduledState { s with spTimers := some (removeLoop ls src) }
        (removeLoop ls src)) := by
    rw [timers_remove_run hsp]
    exact resched_normal fuel _ (removeLoop ls src) rfl hd (by omega)
  have hnodueR : ∀ t ∈ removeLoop ls src, ¬ dueAt s.heap s.now t := by
    intro t ht
    rw [hrl] at ht
    exact hnodue t (List.mem_of_mem_filter ht)
  have hsur : survivors s.heap s.now (removeLoop ls src) = removeLoop ls src := by
    refine List.filter_eq_self.mpr ?_
    intro a ha
    simpa using hnodueR a ha
  have hhp : expireHeap s.heap s.now (removeLoop ls src) = s.heap :=
    expireHeap_of_noDue hnodueR
  have hS₂sp : (rescheduledState { s with spTimers := some (removeLoop ls src) }
      (removeLoop ls src)).spTimers = some (removeLoop ls src) := by
    show some (survivors s.heap s.now (removeLoop ls src)) = _
    rw [hsur]
  have hS₂heap : (rescheduledState { s with spTimers := some (removeLoop ls src) }
      (removeLoop ls src)).heap = s.heap := by
    show expireHeap s.heap s.now (removeLoop ls src) = s.heap
    exact hhp
  have hmemR : n ∈ removeLoop ls src := by
    rw [hrl, List.mem_filter]
    refine ⟨hmem, ?_⟩
    simp [hne]
  simp only [Timer.dtor]
  rw [hremeq]
  simp only [andThen]
  have hd₂ : allDefault (rescheduledState { s with spTimers := some (removeLoop ls src) }
      (removeLoop ls src)).heap := by
    rw [hS₂heap]
    exact hd
  have hfire := resched_normal fuel
    { rescheduledState { s with spTimers := some (removeLoop ls src) }
        (removeLoop ls src) with now := T }
    (removeLoop ls src) hS₂sp hd₂ (by omega)
  unfold Timers.Reschedule
  rw [hfire]
  simp only [heapAt, countAfter, membersAfter, isOk, Option.getD_some]
  have hduen : dueAt (rescheduledState { s with spTimers := some (removeLoop ls src) }
      (removeLoop ls src)).heap T n := by
    unfold dueAt
    rw [hS₂heap]
    omega
  refine ⟨trivial, ?_, ?_⟩
  · show some (expireHeap _ T (removeLoop ls src) n) = _
    dsimp only
    unfold expireHeap
    rw [if_pos ⟨hmemR, hduen⟩]
    rw [show (rescheduledState { s with spTimers := some (removeLoop ls src) }
      (removeLoop ls src)).heap n = s.heap n from congrFun hS₂heap n]
  · show (survivors _ T (removeLoop ls src)).count n = 0
    dsimp only
    refine List.count_eq_zero.mpr ?_
    intro hmem2
    exact (mem_survivors hmem2).2 hduen

/-- C8: copy-constructing `t2` from `t1` copies `expires_at` and `expired`
(and the dynamic type).  If `t1` is inert or expired, `t2` does not join
the set (the state changes only by the new object allocation).  If `t1`
is armed with a future deadline, `t2` joins as one distinct new member,
`t1`'s object and back-references are untouched, and after destroying
`t1` and letting the clock reach the deadline, a poll still dispatches
`t2` (its expired flag is set and it leaves the set). -/
theorem c8_copy_spec (fuel : Nat) (st : TimersState) (l : List Nat) (src : Nat) (T : Int)
    (hsp : st.spTimers = some l) (hd : allDefault st.heap)
    (hfresh : st.nextId ∉ l) (hsrcne : src ≠ st.nextId) (hnow : 0 ≤ st.now)
    (hquiet : ∀ t ∈ l, ¬ dueAt st.heap st.now t)
    (hfuel : l.length + 6 < fuel) :
    (((st.heap src).mExpired = true ∨ (st.heap src).mExpires = 0) →
      Timer.copyCtor fuel src st = Outcome.ok
        { st with
          heap := setTimer st.heap st.nextId (st.heap src),
          nextId := st.nextId + 1 }) ∧
    ((st.heap src).mExpired = false → st.now < (st.heap src).mExpires →
      isOk (Timer.copyCtor fuel src st) = true ∧
      heapAt (Timer.copyCtor fuel src st) st.nextId = some (st.heap src) ∧
      countAfter (Timer.copyCtor fuel src st) st.nextId = 1 ∧
      heapAt (Timer.copyCtor fuel src st) src = some (st.heap src) ∧
      countAfter (Timer.copyCtor fuel src st) src = l.count src ∧
      ((st.heap src).mExpires ≤ T →
        heapAt (andThen (Timer.copyCtor fuel src st)
          (fun s1 => andThen (Timer.dtor fuel src s1)
            (fun s2 => Timers.Reschedule fuel { s2 with now := T }))) st.nextId =
          some ⟨(st.heap src).mExpires, true, (st.heap src).behavior⟩ ∧
        countAfter (andThen (Timer.copyCtor fuel src st)
          (fun s1 => andThen (Timer.dtor fuel src s1)
            (fun s2 => Timers.Reschedule fuel { s2 with now := T }))) st.nextId = 0)) := by
  constructor
  · intro hx
    refine timer_copy_run_inert ?_
    rcases hx with hx | hx
    · rintro ⟨h1, -⟩; rw [hx] at h1; cases h1
    · rintro ⟨-, h2⟩; exact h2 hx
  · intro hx hfut
    have hne0 : (st.heap src).mExpires ≠ 0 := by omega
    rw [timer_copy_run_armed hx hne0]
    obtain ⟨hok, hheapn, hcntn, hoth, hothc⟩ :=
      add_armed_tail fuel { st with nextId := st.nextId + 1 } l st.nextId
        (st.heap src) hsp hd hfresh hquiet hfut (hd src) (by omega)
    refine ⟨hok, hheapn, hcntn, hoth src hsrcne, hothc src hsrcne, ?_⟩
    intro hT
    have hdC : allDefault (setTimer st.heap st.nextId (st.heap src)) :=
      allDefault_setTimer_obj hd (hd src)
    have haddeq := add_normal fuel
      { st with
        heap := setTimer st.heap st.nextId (st.heap src),
        nextId := st.nextId + 1 } l st.nextId hsp hdC (by omega)
    rw [haddeq]
    have hnodueC : ∀ t ∈ l ++ [st.nextId],
        ¬ dueAt (setTimer st.heap st.nextId (st.heap src)) st.now t := by
      intro t ht
      rcases List.mem_append.mp ht with ht | ht
      · have htn : t ≠ st.nextId := fun h => hfresh (h ▸ ht)
        unfold dueAt setTimer
        rw [if_neg htn]
        exact hquiet t ht
      · have htn : t = st.nextId := by simpa using ht
        subst htn
        unfold dueAt setTimer
        rw [if_pos rfl]
        omega
    have hhp1 : expireHeap (setTimer st.heap st.nextId (st.heap src)) st.now
        (l ++ [st.nextId]) = setTimer st.heap st.nextId (st.heap src) :=
      expireHeap_of_noDue hnodueC
    have hsur1 : survivors (setTimer st.heap st.nextId (st.heap src)) st.now
        (l ++ [st.nextId]) = l ++ [st.nextId] := by
      refine List.filter_eq_self.mpr ?_
      intro a ha
      simpa using hnodueC a ha
    have hS₁sp : (rescheduledState
        { st with
          heap := setTimer st.heap st.nextId (st.heap src),
          spTimers := some (l ++ [st.nextId]),
          nextId := st.nextId + 1 } (l ++ [st.nextId])).spTimers =
        some (l ++ [st.nextId]) := by
      show some (survivors (setTimer st.heap st.nextId (st.heap src)) st.now
        (l ++ [st.nextId])) = _
      rw [hsur1]
    have hS₁heap : (rescheduledState
        { st with
          heap := setTimer st.heap st.nextId (st.heap src),
          spTimers := some (l ++ [st.nextId]),
          nextId := st.nextId + 1 } (l ++ [st.nextId])).heap =
        setTimer st.heap st.nextId (st.heap src) := hhp1
    have hS₁hd : allDefault (rescheduledState
        { st with
          heap := setTimer st.heap st.nextId (st.heap src),
          spTimers := some (l ++ [st.nextId]),
          nextId := st.nextId + 1 } (l ++ [st.nextId])).heap := by
      rw [hS₁heap]
      exact hdC
    have hS₁nodue : ∀ t ∈ l ++ [st.nextId],
        ¬ dueAt (rescheduledState
          { st with
            heap := setTimer st.heap st.nextId (st.heap src),
            spTimers := some (l ++ [st.nextId]),
            nextId := st.nextId + 1 } (l ++ [st.nextId])).heap
          (rescheduledState
          { st with
            heap := setTimer st.heap st.nextId (st.heap src),
            spTimers := some (l ++ [st.nextId]),
            nextId := st.nextId + 1 } (l ++ [st.nextId])).now t := by
      intro t ht hd2
      apply hnodueC t ht
      unfold dueAt at hd2 ⊢
      rw [congrFun hS₁heap t] at hd2
      exact hd2
    have hS₁n : (rescheduledState
        { st with
          heap := setTimer st.heap st.nextId (st.heap src),
          spTimers := some (l ++ [st.nextId]),
          nextId := st.nextId + 1 } (l ++ [st.nextId])).heap st.nextId =
        st.heap src := by
      rw [congrFun hS₁heap st.nextId]
      unfold setTimer
      rw [if_pos rfl]
    obtain ⟨-, hfin1, hfin2⟩ := remove_then_fire fuel
      (rescheduledState
        { st with
          heap := setTimer st.heap st.nextId (st.heap src),
          spTimers := some (l ++ [st.nextId]),
          nextId := st.nextId + 1 } (l ++ [st.nextId]))
      (l ++ [st.nextId]) src st.nextId T hS₁sp hS₁hd hS₁nodue (by simp)
      (fun h => hsrcne h.symm) (by rw [hS₁n]; exact hT)
      (by simp only [List.length_append, List.length_cons, List.length_nil]; omega)
    exact ⟨hfin1.trans (by rw [hS₁n]), hfin2⟩

/-- C8, witness: timer 0 armed for 1s; its copy (address 1) fires at the
same deadline after timer 0 is destroyed. -/
theorem c8_copy_spec_witness :
    c8State.spTimers = some [0] ∧
    ((c8State.heap 0).mExpired = false → c8State.now < (c8State.heap 0).mExpires →
      isOk (Timer.copyCtor 8 0 c8State) = true ∧
      heapAt (Timer.copyCtor 8 0 c8State) c8State.nextId = some (c8State.heap 0) ∧
      countAfter (Timer.copyCtor 8 0 c8State) c8State.nextId = 1 ∧
      heapAt (Timer.copyCtor 8 0 c8State) 0 = some (c8State.heap 0) ∧
      countAfter (Timer.copyCtor 8 0 c8State) 0 = ([0] : List Nat).count 0 ∧
      ((c8State.heap 0).mExpires ≤ 2000000 →
        heapAt (andThen (Timer.copyCtor 8 0 c8State)
          (fun s1 => andThen (Timer.dtor 8 0 s1)
            (fun s2 => Timers.Reschedule 8 { s2 with now := 2000000 })))
          c8State.nextId =
          some ⟨(c8State.heap 0).mExpires, true, (c8State.heap 0).behavior⟩ ∧
        countAfter (andThen (Timer.copyCtor 8 0 c8State)
          (fun s1 => andThen (Timer.dtor 8 0 s1)
            (fun s2 => Timers.Reschedule 8 { s2 with now := 2000000 })))
          c8State.nextId = 0)) :=
  ⟨rfl, (c8_copy_spec 8 c8State [0] 0 2000000 rfl
    (allDefault_setTimer allDefault_baseHeap 0 2000000 false)
    (by decide) (by decide) (by decide) (by decide) (by decide)).2⟩

/-! ## Claim C10 -/

theorem expiry_flag_preserved :
    ∀ f st st', allDefault st.heap → exec f (Call.expiry st) = Outcome.ok st' →
      st'.sRescheduleNeeded = st.sRescheduleNeeded
  | 0, st, st' => by simp [exec]
  | f + 1, st, st' => by
    intro hd hex
    cases hsp : st.spTimers with
    | none => rw [exec_expiry_none hsp] at hex; cases hex
    | some l =>
      cases hfd : findDueSplit st.heap st.now l with
      | none =>
        rw [exec_expiry_done hsp hfd] at hex
        cases hex
        rfl
      | some p =>
        obtain ⟨pre, t, post⟩ := p
        cases f with
        | zero =>
          rw [exec_expiry_step_fault hsp hfd (exec_zero _)] at hex
          cases hex
        | succ g =>
          have hsp₁ : (markExpired st t).spTimers = some l :=
            (markExpired_spTimers st t).trans hsp
          rw [exec_expiry_step hsp hfd (exec_onExpire_default (hd t)) hsp₁] at hex
          have := expiry_flag_preserved (g + 1)
            { markExpired st t with spTimers := some (l.eraseIdx pre.length) } st'
            (allDefault_markExpired t hd) hex
          rw [this]
          rfl

theorem armResult_ok_flag {st st' : TimersState}
    (h : armResult st = Outcome.ok st') :
    st'.sRescheduleNeeded = st.sRescheduleNeeded := by
  unfold armResult at h
  cases hsp : st.spTimers with
  | none => rw [hsp] at h; cases h
  | some l =>
    rw [hsp] at h
    simp only at h
    by_cases hlt : selectLoop st.heap st.now l 0 < 0
    · rw [if_pos hlt] at h; cases h
    · rw [if_neg hlt] at h
      cases h
      rfl

/-- C10: `Reschedule` clears the reschedule-requested flag as its very
first step, before the expiry and selection passes run; the remaining
passes (with base-class callbacks) never write the flag, so a
notification delivered at any point after the clear — modelled by
`RequestReschedule` on the intermediate state — leaves the flag set when
`Reschedule` completes; a subsequent `PollIfNeeded` with the flag set
re-enters `Reschedule`, and any `Reschedule` that returns normally has
dispatched every due timer (no remaining member is due). -/
theorem c10_flag_clear_first (fuel f : Nat) (st stI st' st'' : TimersState) (l : List Nat) :
    (st.spTimers = some l →
      Timers.Reschedule (f + 1) st =
        andThen (exec f (Call.expiry { st with sRescheduleNeeded := false })) armResult) ∧
    (allDefault stI.heap →
      andThen (exec f (Call.expiry (Timers.RequestReschedule stI))) armResult =
        Outcome.ok st' →
      st'.sRescheduleNeeded = true) ∧
    (st.sRescheduleNeeded = true →
      Timers.PollIfNeeded fuel st = Timers.Reschedule fuel st) ∧
    (Timers.Reschedule fuel st = Outcome.ok st'' →
      ∀ l', st''.spTimers = some l' → ∀ t ∈ l', ¬ dueAt st''.heap st''.now t) := by
  refine ⟨?_, ?_, ?_, ?_⟩
  · intro hsp
    unfold Timers.Reschedule
    cases hev : exec f (Call.expiry { st with sRescheduleNeeded := false }) with
    | ok s1 => rw [exec_resched_ok hsp hev]; rfl
    | exc s1 => rw [exec_resched_exc hsp hev]; rfl
    | fault => rw [exec_resched_fault hsp hev]; rfl
  · intro hd hcomp
    cases hev : exec f (Call.expiry (Timers.RequestReschedule stI)) with
    | ok s1 =>
      rw [hev] at hcomp
      have h1 : s1.sRescheduleNeeded = true :=
        expiry_flag_preserved f (Timers.RequestReschedule stI) s1 hd hev
      have h2 : st'.sRescheduleNeeded = s1.sRescheduleNeeded :=
        armResult_ok_flag hcomp
      rw [h2, h1]
    | exc s1 => rw [hev] at hcomp; cases hcomp
    | fault => rw [hev] at hcomp; cases hcomp
  · intro hflag
    unfold Timers.PollIfNeeded Timers.Reschedule
    rw [if_pos hflag]
  · intro hex
    exact resched_ok_noDue fuel st st'' hex

/-- C10, witness: a set flag forces a pass; re-setting it right after the
clear survives to completion; the poll re-enters; and after the pass no
member is due. -/
theorem c10_flag_clear_first_witness :
    c10State.spTimers = some [0] ∧ c10State.sRescheduleNeeded = true ∧
    (Timers.Reschedule 4 c10State =
      andThen (exec 3 (Call.expiry { c10State with sRescheduleNeeded := false }))
        armResult) ∧
    ({ c10State with itimer := (1, 0) } : TimersState).sRescheduleNeeded = true ∧
    Timers.PollIfNeeded 4 c10State = Timers.Reschedule 4 c10State ∧
    (∀ t ∈ ([0] : List Nat),
      ¬ dueAt ({ c10State with sRescheduleNeeded := false, itimer := (1, 0) }
          : TimersState).heap
        ({ c10State with sRescheduleNeeded := false, itimer := (1, 0) }
          : TimersState).now t) := by
  obtain ⟨h1, h2, h3, h4⟩ := c10_flag_clear_first 4 3 c10State c10State
    { c10State with itimer := (1, 0) }
    { c10State with sRescheduleNeeded := false, itimer := (1, 0) } [0]
  refine ⟨rfl, rfl, h1 rfl, ?_, h3 rfl, ?_⟩
  · refine h2 (allDefault_setTimer allDefault_baseHeap 0 2000000 false) ?_
    rfl
  · refine h4 ?_ [0] rfl
    rfl

/-- C6, witness: over an empty initialised set, `Timer(0)` is born inert
and joins nothing; `Timer(2)` is stamped `now + 2·10⁶` and joins as one
member. -/
theorem c6_ctor_spec_witness :
    c6State.spTimers = some [] ∧
    ((isOk (Timer.ctorTimeout 7 0 c6State) = true ∧
      heapAt (Timer.ctorTimeout 7 0 c6State) c6State.nextId =
        some ⟨0, false, Behavior.default⟩ ∧
      membersAfter (Timer.ctorTimeout 7 0 c6State) = some []) ∧
     ((2 : Nat) ≠ 0 →
       isOk (Timer.ctorTimeout 7 2 c6State) = true ∧
       heapAt (Timer.ctorTimeout 7 2 c6State) c6State.nextId =
         some ⟨c6State.now + (2 : Int) * 1000000, false, Behavior.default⟩ ∧
       countAfter (Timer.ctorTimeout 7 2 c6State) c6State.nextId = 1)) :=
  ⟨rfl, c6_ctor_spec 7 c6State [] 2 rfl allDefault_baseHeap (by decide) (by decide)⟩
